import Mathlib

/-!
Shallow embedding of the upsert reconciliation engine in
`src/api/ghl/sync-product.js` (the canonical v10 handler).

The handler is modelled as a pure function from a request environment, a
mapping store and a downstream catalog state to an outcome that carries the
JSON response, the final catalog and store states, and the ordered trace of
downstream catalog calls.  Downstream failures are injected through an
explicit fault schedule (`Faults`), mirroring which call sites of the source
are wrapped in `try`/`catch` and which are not.
-/

namespace SyncProduct

/-- JavaScript `a || b` restricted to strings: the empty string is the only
falsy string value. -/
def strOr (a b : String) : String := if a = "" then b else a

/-- Whitespace test used by the trim model (models `String.prototype.trim`'s
character class on the fragment relevant here). -/
def wsChar (c : Char) : Bool := c.isWhitespace

/-- Character data of a trimmed string: drop whitespace from both ends. -/
def trimData (l : List Char) : List Char :=
  ((l.dropWhile wsChar).reverse.dropWhile wsChar).reverse

/-- Models `String.prototype.trim`. -/
def trimStr (s : String) : String := String.mk (trimData s.data)

/-- ASCII lower-casing of one character. -/
def lowerChar (c : Char) : Char :=
  if 'A' ≤ c ∧ c ≤ 'Z' then Char.ofNat (c.toNat + 32) else c

/-- Models `String.prototype.toLowerCase` (ASCII fragment). -/
def lowerStr (s : String) : String := String.mk (s.data.map lowerChar)

/-- The first list is an initial segment of the second. -/
def listStartsWith : List Char → List Char → Bool
  | [], _ => true
  | _ :: _, [] => false
  | a :: ts, b :: ss => a == b && listStartsWith ts ss

/-- The list `t` occurs contiguously inside the second list. -/
def occursIn (t : List Char) : List Char → Bool
  | [] => listStartsWith t []
  | c :: ss => listStartsWith t (c :: ss) || occursIn t ss

/-- Models `String.prototype.includes`: `t` occurs in `s`. -/
def strIncludes (s t : String) : Bool := occursIn t.data s.data

/-- First `n` characters of a string (models `slice(0, n)`). -/
def strTake (s : String) (n : Nat) : String := String.mk (s.data.take n)

/-- Downstream collection record.  `cid`, `mid` and `colid` model the `id`,
`_id` and `collectionId` fields of the raw JSON object, with `""` standing
for an absent field. -/
structure Collection where
  name : String
  cid : String
  mid : String
  colid : String
deriving DecidableEq, Repr

/-- Models `normalizeCollectionId` (line 143): the first truthy one of `id`,
`_id`, `collectionId`, with `""` for `null`. -/
def normalizeCollectionId (c : Collection) : String :=
  strOr c.cid (strOr c.mid c.colid)

/-- Models `findCollectionByName` (lines 157-175): case-insensitive trimmed
exact-name match first, then case-insensitive substring match, first hit
wins. -/
def findCollectionByName (collections : List Collection) (collectionName : String) :
    Option Collection :=
  let target := lowerStr (trimStr collectionName)
  if target = "" then none
  else
    match collections.find? (fun c => decide (lowerStr (trimStr c.name) = target)) with
    | some hit => some hit
    | none => collections.find? (fun c => strIncludes (lowerStr (trimStr c.name)) target)

/-- The resolved collection id the handler tests (`matched?.__resolvedId`,
lines 171-174 and 366): `""` when no collection matched, or when the match
has no extractable id. -/
def collectionRid (collections : List Collection) (collectionName : String) : String :=
  match findCollectionByName collections collectionName with
  | none => ""
  | some hit => normalizeCollectionId hit

/-- Downstream product record (id plus the name field the naming rule is
about). -/
structure Product where
  id : String
  name : String
deriving DecidableEq, Repr

/-- Downstream price record. -/
structure Price where
  id : String
  productId : String
  sku : String
  amount : Int
deriving DecidableEq, Repr

/-- Downstream catalog state. -/
structure Catalog where
  collections : List Collection
  products : List Product
  prices : List Price
  nextId : Nat
deriving DecidableEq, Repr

/-- Fresh product id assigned by the downstream service. -/
def freshPid (n : Nat) : String := String.mk ('p' :: (Nat.repr n).data)

/-- Fresh price id assigned by the downstream service. -/
def freshPrid (n : Nat) : String := String.mk ('q' :: (Nat.repr n).data)

def Catalog.addProduct (c : Catalog) (name : String) : Catalog × String :=
  let pid := freshPid c.nextId
  ({ c with products := c.products ++ [⟨pid, name⟩], nextId := c.nextId + 1 }, pid)

def Catalog.putName (c : Catalog) (pid name : String) : Catalog :=
  { c with products :=
      c.products.map fun p => if p.id = pid then { p with name := name } else p }

def Catalog.hasProduct (c : Catalog) (pid : String) : Bool :=
  c.products.any (fun p => decide (p.id = pid))

def Catalog.findProduct (c : Catalog) (pid : String) : Option Product :=
  c.products.find? (fun p => decide (p.id = pid))

def Catalog.pricesOf (c : Catalog) (pid : String) : List Price :=
  c.prices.filter (fun p => decide (p.productId = pid))

def Catalog.hasPrice (c : Catalog) (pid prid : String) : Bool :=
  c.prices.any (fun p => decide (p.id = prid ∧ p.productId = pid))

def Catalog.removePrice (c : Catalog) (prid : String) : Catalog :=
  { c with prices := c.prices.filter (fun p => decide (p.id ≠ prid)) }

def Catalog.addPrice (c : Catalog) (pid sku : String) (amount : Int) : Catalog × String :=
  let prid := freshPrid c.nextId
  ({ c with prices := c.prices ++ [⟨prid, pid, sku, amount⟩], nextId := c.nextId + 1 }, prid)

def Catalog.setPrice (c : Catalog) (prid sku : String) (amount : Int) : Catalog :=
  { c with prices :=
      c.prices.map fun p => if p.id = prid then { p with sku := sku, amount := amount } else p }

/-- Stored mapping value `dedupeKey -> (productId, priceId)`. -/
structure Mapping where
  productId : String
  priceId : Option String
deriving DecidableEq, Repr

/-- The optional durable mapping store. -/
abbrev KVStore := List (String × Mapping)

def kvGet (kv : KVStore) (k : String) : Option Mapping :=
  (kv.find? (fun ent => decide (ent.1 = k))).map (fun ent => ent.2)

def kvSet (kv : KVStore) (k : String) (v : Mapping) : KVStore :=
  (k, v) :: kv.filter (fun ent => decide (ent.1 ≠ k))

/-- A JavaScript numeric value obtained from `Number(x)`: a finite number or
`NaN` (also covering the infinities, which fail `Number.isFinite`). -/
inductive JNum where
  | num (v : Int)
  | nan
deriving DecidableEq, Repr

/-- Caller-supplied request, with string fields as given (the handler trims
them itself) and price fields already passed through `Number`. -/
structure Req where
  name : String
  description : String
  collectionName : String
  upsert : Bool
  sku : String
  externalId : String
  price : Option JNum
  compareAt : Option JNum
deriving DecidableEq, Repr

/-- Downstream fault schedule: `some s` makes the corresponding call reject
with HTTP status `s`; `deleteFailIds` lists the price ids whose delete
rejects. -/
structure Faults where
  fetchCollectionsStatus : Option Nat
  searchStatus : Option Nat
  createProductStatus : Option Nat
  putProductStatus : Option Nat
  listPricesStatus : Option Nat
  deleteFailIds : List String
  createPriceStatus : Option Nat
  putPriceStatus : Option Nat
  getProductStatus : Option Nat
  kvGetFails : Bool
  kvSetFails : Bool
deriving DecidableEq, Repr

def noFaults : Faults :=
  { fetchCollectionsStatus := none, searchStatus := none, createProductStatus := none,
    putProductStatus := none, listPricesStatus := none, deleteFailIds := [],
    createPriceStatus := none, putPriceStatus := none, getProductStatus := none,
    kvGetFails := false, kvSetFails := false }

/-- One downstream catalog call, in the order issued. -/
inductive Call where
  | fetchCollections
  | searchProducts (term : String)
  | createProduct (name : String)
  | putProduct (productId name : String)
  | listPrices (productId : String)
  | deletePrice (productId priceId : String)
  | createPrice (productId sku : String) (amount : Int)
  | putPrice (productId priceId : String)
  | getProduct (productId : String)
deriving DecidableEq, Repr

/-- An entry of `priceDedupe.errors`. -/
structure DedupeErr where
  stage : String
  priceId : String
  status : Nat
deriving DecidableEq, Repr

/-- The `priceDedupe` object of the response. -/
structure DedupeInfo where
  attempted : Bool
  deleted : List String
  errors : List DedupeErr
deriving DecidableEq, Repr

/-- The `price` field of the response: a created/updated price id, or the
caught `__error` object. -/
inductive PriceRes where
  | ok (priceId : String)
  | err (status : Nat)
deriving DecidableEq, Repr

/-- The JSON response body (the fields the claims are about). -/
structure Resp where
  status : Nat
  ok : Bool
  error : String
  mode : String
  productId : String
  collectionId : String
  collectionsSeen : List (String × String)
  dedupe : DedupeInfo
  priceAction : String
  priceResp : Option PriceRes
  mapping : Option Mapping
  mappingSaved : Bool
  verified : Option Product
  usedKV : Bool
  dedupeKey : String
deriving DecidableEq, Repr

def errResp (status : Nat) (msg : String) : Resp :=
  { status := status, ok := false, error := msg, mode := "", productId := "",
    collectionId := "", collectionsSeen := [], dedupe := ⟨false, [], []⟩,
    priceAction := "none", priceResp := none, mapping := none,
    mappingSaved := false, verified := none, usedKV := false, dedupeKey := "" }

/-- Final result of one invocation: response, final downstream catalog state,
final mapping store, and the ordered downstream call trace. -/
structure Outcome where
  resp : Resp
  cat : Catalog
  kv : KVStore
  calls : List Call
deriving DecidableEq, Repr

/-- Request environment: the parsed body, the location id, whether the
mapping store client is available, and the downstream fault schedule. -/
structure Env where
  req : Req
  locId : String
  kvAvail : Bool
  faults : Faults
deriving DecidableEq, Repr

/-- The handler's `rawName` (line 252). -/
def Env.rawName (e : Env) : String := trimStr e.req.name

/-- The handler's `collectionName` (line 254). -/
def Env.collName (e : Env) : String := trimStr e.req.collectionName

/-- The handler's `sku` (line 291). -/
def Env.skuT (e : Env) : String := trimStr e.req.sku

/-- The handler's `externalId` (line 292). -/
def Env.extIdT (e : Env) : String := trimStr e.req.externalId

/-- The handler's `dedupeKey` (lines 294-295). -/
def Env.dedupeKey (e : Env) : String :=
  let raw := strOr e.skuT e.extIdT
  if raw = "" then "" else lowerStr raw

/-- The handler's `taggedName` (line 311). -/
def Env.taggedName (e : Env) : String :=
  if e.dedupeKey = "" then e.rawName else "[DBE:" ++ e.dedupeKey ++ "] " ++ e.rawName

/-- The handler's `kvKey` (line 417). -/
def Env.kvKey (e : Env) : String :=
  if e.dedupeKey = "" then "" else "dbe:map:" ++ e.locId ++ ":" ++ e.dedupeKey

/-- The literal tag substring searched for in the fallback (line 453). -/
def Env.searchTag (e : Env) : String := "[DBE:" ++ e.dedupeKey ++ "]"

/-- Output of the upsert resolution step. -/
structure Located where
  mode : String
  productId : Option String
  existingPriceId : Option String
  calls : List Call
deriving DecidableEq, Repr

def Located.create : Located :=
  { mode := "create", productId := none, existingPriceId := none, calls := [] }

/-- The tagged-name fallback search (lines 450-467), entered when no usable
mapping was found; it only searches when the store client is unavailable, and
any search failure is caught and ignored. -/
def locateFallback (e : Env) (cat0 : Catalog) : Located :=
  if e.kvAvail = false then
    let term := strTake e.searchTag 64
    let calls := [Call.searchProducts term]
    match e.faults.searchStatus with
    | some _ => { Located.create with calls := calls }
    | none =>
      let products := cat0.products.filter (fun p => strIncludes p.name term)
      let hit :=
        match products.find? (fun p => strIncludes p.name e.searchTag) with
        | some h => some h
        | none => products.find? (fun p => decide (trimStr p.name = e.taggedName))
      match hit with
      | some h =>
        if h.id ≠ "" then
          { mode := "update", productId := some h.id, existingPriceId := none, calls := calls }
        else { Located.create with calls := calls }
      | none => { Located.create with calls := calls }
  else Located.create

/-- Models handler step 4, the upsert resolution (lines 415-468): consult the
mapping store when available, else fall back to the tagged-name search. -/
def locateExisting (e : Env) (kv0 : KVStore) (cat0 : Catalog) : Located :=
  if e.req.upsert = true then
    let map : Option Mapping :=
      if e.kvAvail = true ∧ e.kvKey ≠ "" ∧ e.faults.kvGetFails = false then
        kvGet kv0 e.kvKey
      else none
    match map with
    | some m =>
      if m.productId ≠ "" then
        { mode := "update", productId := some m.productId,
          existingPriceId :=
            match m.priceId with
            | some p => if p = "" then none else some p
            | none => none,
          calls := [] }
      else locateFallback e cat0
    | none => locateFallback e cat0
  else Located.create

/-- The full product payload (only the fields the claims mention). -/
structure ProductPayload where
  name : String
  collectionIds : List String
deriving DecidableEq, Repr

/-- Continuation value of the product stage. -/
structure ProdOut where
  productId : String
  cat : Catalog
  calls : List Call
deriving DecidableEq, Repr

/-- Models handler step 5, create/update product (lines 470-508).  A create
failure is uncaught (fatal, via the outer catch); both `putProduct` calls are
wrapped in `try`/`catch` whose caught error is dropped. -/
def productStage (e : Env) (loc : Located) (rid : String) (cat : Catalog)
    (kv : KVStore) (calls : List Call) : Outcome ⊕ ProdOut :=
  let base : ProductPayload := { name := e.rawName, collectionIds := [rid] }
  if loc.mode = "update" then
    let payload := if e.kvAvail = false then { base with name := e.taggedName } else base
    let pid := loc.productId.getD ""
    let calls := calls ++ [Call.putProduct pid payload.name]
    match e.faults.putProductStatus with
    | some _ => Sum.inr ⟨pid, cat, calls⟩
    | none =>
      if cat.hasProduct pid = true then Sum.inr ⟨pid, cat.putName pid payload.name, calls⟩
      else Sum.inr ⟨pid, cat, calls⟩
  else
    let payload :=
      if e.req.upsert = true ∧ e.kvAvail = false then { base with name := e.taggedName }
      else base
    let calls := calls ++ [Call.createProduct payload.name]
    match e.faults.createProductStatus with
    | some s => Sum.inl ⟨errResp s ("GHL " ++ toString s), cat, kv, calls⟩
    | none =>
      let r := cat.addProduct payload.name
      let calls := calls ++ [Call.putProduct r.2 payload.name]
      match e.faults.putProductStatus with
      | some _ => Sum.inr ⟨r.2, r.1, calls⟩
      | none => Sum.inr ⟨r.2, (r.1).putName r.2 payload.name, calls⟩

/-- Models the delete loop of the price dedupe (lines 570-584): skip entries
without an id, record each delete failure in `errors`, record each success in
`deleted`. -/
def runDeletes (e : Env) (pid : String) :
    List Price → Catalog → DedupeInfo → List Call → Catalog × DedupeInfo × List Call
  | [], cat, dd, calls => (cat, dd, calls)
  | p :: rest, cat, dd, calls =>
    if p.id = "" then runDeletes e pid rest cat dd calls
    else
      let calls := calls ++ [Call.deletePrice pid p.id]
      if p.id ∈ e.faults.deleteFailIds then
        runDeletes e pid rest cat
          { dd with errors := dd.errors ++ [⟨"deletePrice", p.id, 500⟩] } calls
      else if cat.hasPrice pid p.id = true then
        runDeletes e pid rest (cat.removePrice p.id)
          { dd with deleted := dd.deleted ++ [p.id] } calls
      else
        runDeletes e pid rest cat
          { dd with errors := dd.errors ++ [⟨"deletePrice", p.id, 404⟩] } calls

/-- The `compareAt` validity test of handler lines 524-531: `true` when a
`compareAt` value is supplied and is non-numeric or negative. -/
def compareBadB (r : Req) : Bool :=
  match r.compareAt with
  | none => false
  | some JNum.nan => true
  | some (JNum.num v) => decide (v < 0)

/-- Validity of the supplied price per handler lines 515-531 (`compareAt` is
only examined when a price amount is supplied). -/
def priceOkB (r : Req) : Bool :=
  match r.price with
  | none => true
  | some JNum.nan => false
  | some (JNum.num a) => decide (0 ≤ a) && !(compareBadB r)

/-- Continuation value of the price stage. -/
structure PriceOut where
  action : String
  priceResp : Option PriceRes
  dedupe : DedupeInfo
  cat : Catalog
  calls : List Call
deriving DecidableEq, Repr

/-- The baseline unconditional price create (lines 609-618), also reused as
the fallback create of the update branch. -/
def plainCreate (e : Env) (pid : String) (amt : Int) (action failedAction : String)
    (dd : DedupeInfo) (cat : Catalog) (calls : List Call) : PriceOut :=
  let calls := calls ++ [Call.createPrice pid e.skuT amt]
  match e.faults.createPriceStatus with
  | some s => ⟨failedAction, some (PriceRes.err s), dd, cat, calls⟩
  | none =>
    let r := cat.addPrice pid e.skuT amt
    ⟨action, some (PriceRes.ok r.2), dd, r.1, calls⟩

/-- Models handler step 6, price logic and de-dupe (lines 510-619). -/
def priceStage (e : Env) (mode : String) (pid : String) (existingPriceId : Option String)
    (cat : Catalog) (kv : KVStore) (calls : List Call) : Outcome ⊕ PriceOut :=
  let dd0 : DedupeInfo := ⟨false, [], []⟩
  match e.req.price with
  | none => Sum.inr ⟨"none", none, dd0, cat, calls⟩
  | some JNum.nan =>
    Sum.inl ⟨errResp 400 "Invalid price. Provide a numeric price >= 0.", cat, kv, calls⟩
  | some (JNum.num amt) =>
    if amt < 0 then
      Sum.inl ⟨errResp 400 "Invalid price. Provide a numeric price >= 0.", cat, kv, calls⟩
    else
      let compareBad : Bool := compareBadB e.req
      if compareBad = true then
        Sum.inl ⟨errResp 400 "Invalid compareAt price. Provide a numeric compareAt >= 0.",
          cat, kv, calls⟩
      else if e.req.upsert = true ∧ e.skuT ≠ "" then
        let dd := { dd0 with attempted := true }
        let calls := calls ++ [Call.listPrices pid]
        let listed : List Price × DedupeInfo :=
          match e.faults.listPricesStatus with
          | some s => ([], { dd with errors := dd.errors ++ [⟨"listPrices", "", s⟩] })
          | none => (cat.pricesOf pid, dd)
        let skuLower := lowerStr e.skuT
        let hits := listed.1.filter (fun p => decide (lowerStr (trimStr p.sku) = skuLower))
        let after := runDeletes e pid hits cat listed.2 calls
        Sum.inr (plainCreate e pid amt "dedupe_delete_then_create" "failed"
          after.2.1 after.1 after.2.2)
      else if mode = "update" ∧ existingPriceId.isSome then
        let epid := existingPriceId.getD ""
        let calls := calls ++ [Call.putPrice pid epid]
        if (e.faults.putPriceStatus.isSome || !(cat.hasPrice pid epid)) = true then
          Sum.inr (plainCreate e pid amt "create_fallback_after_failed_update" "failed"
            dd0 cat calls)
        else
          Sum.inr ⟨"update", some (PriceRes.ok epid), dd0, cat.setPrice epid e.skuT amt, calls⟩
      else
        Sum.inr (plainCreate e pid amt "create" "failed" dd0 cat calls)

/-- Output of the mapping persistence step. -/
structure MapOut where
  mapping : Option Mapping
  saved : Bool
  kv : KVStore
deriving DecidableEq, Repr

/-- Models handler step 7, persist mapping (lines 621-639): a store write
failure only clears `mappingSaved`. -/
def mappingStage (e : Env) (pid : String) (existingPriceId : Option String)
    (priceResp : Option PriceRes) (kv : KVStore) : MapOut :=
  if e.req.upsert = true ∧ e.dedupeKey ≠ "" then
    let priceId : Option String :=
      match priceResp with
      | some (PriceRes.ok prid) => if prid = "" then existingPriceId else some prid
      | some (PriceRes.err _) => existingPriceId
      | none => existingPriceId
    let m : Mapping := ⟨pid, priceId⟩
    if e.kvAvail = true then
      if e.faults.kvSetFails = true then ⟨some m, false, kv⟩
      else ⟨some m, true, kvSet kv e.kvKey m⟩
    else ⟨some m, false, kv⟩
  else ⟨none, false, kv⟩

/-- Models handler step 8, the verification re-fetch plus the success
response (lines 641-686); a verify failure is uncaught and reaches the outer
catch (lines 687-704). -/
def verifyStage (e : Env) (mode : String) (pid rid : String) (dd : DedupeInfo)
    (pa : String) (pr : Option PriceRes) (m : Option Mapping) (ms : Bool)
    (cat : Catalog) (kv : KVStore) (calls : List Call) : Outcome :=
  let calls := calls ++ [Call.getProduct pid]
  match e.faults.getProductStatus with
  | some s => ⟨errResp s ("GHL " ++ toString s), cat, kv, calls⟩
  | none =>
    match cat.findProduct pid with
    | none => ⟨errResp 404 "GHL 404", cat, kv, calls⟩
    | some p =>
      ⟨{ status := if mode = "update" then 200 else 201, ok := true, error := "",
         mode := mode, productId := pid, collectionId := rid,
         collectionsSeen := [], dedupe := dd, priceAction := pa, priceResp := pr,
         mapping := m, mappingSaved := ms, verified := some p,
         usedKV := e.kvAvail, dedupeKey := e.dedupeKey }, cat, kv, calls⟩

/-- Shallow embedding of the POST path of the canonical v10 handler in
`src/api/ghl/sync-product.js`, from the input guards (lines 297-309) to the
final response, assuming the credential and location configuration checks
passed.  `Outcome.calls` records every downstream catalog call in order. -/
def handler (e : Env) (kv0 : KVStore) (cat0 : Catalog) : Outcome :=
  if e.rawName = "" then
    ⟨errResp 400 "Missing required field: name", cat0, kv0, []⟩
  else if e.collName = "" then
    ⟨errResp 400 "Missing required field: collectionName", cat0, kv0, []⟩
  else if e.req.upsert = true ∧ e.dedupeKey = "" then
    ⟨errResp 400 "Upsert requested but no dedupe key provided.", cat0, kv0, []⟩
  else
    let calls0 := [Call.fetchCollections]
    match e.faults.fetchCollectionsStatus with
    | some s => ⟨errResp s ("GHL " ++ toString s), cat0, kv0, calls0⟩
    | none =>
      let rid := collectionRid cat0.collections e.collName
      if rid = "" then
        ⟨{ errResp 404 "Collection not found (or missing id)" with
            collectionsSeen := (cat0.collections.take 25).map
              (fun c => (c.name, normalizeCollectionId c)) }, cat0, kv0, calls0⟩
      else
        let loc := locateExisting e kv0 cat0
        let calls1 := calls0 ++ loc.calls
        match productStage e loc rid cat0 kv0 calls1 with
        | Sum.inl o => o
        | Sum.inr po =>
          match priceStage e loc.mode po.productId loc.existingPriceId po.cat kv0 po.calls with
          | Sum.inl o => o
          | Sum.inr qo =>
            let mo := mappingStage e po.productId loc.existingPriceId qo.priceResp kv0
            verifyStage e loc.mode po.productId rid qo.dedupe qo.action qo.priceResp
              mo.mapping mo.saved qo.cat mo.kv qo.calls

/-! Basic lemmas about the string model. -/

lemma dropWhile_dropWhile (p : Char → Bool) (l : List Char) :
    (l.dropWhile p).dropWhile p = l.dropWhile p := by
  induction l with
  | nil => rfl
  | cons a t ih =>
    by_cases h : p a = true
    · simp [List.dropWhile_cons, h, ih]
    · simp [List.dropWhile_cons, h]

lemma head?_dropWhile_false (p : Char → Bool) :
    ∀ (l : List Char) (a : Char), (l.dropWhile p).head? = some a → p a = false := by
  intro l
  induction l with
  | nil => intro a h; simp at h
  | cons b t ih =>
    intro a h
    rw [List.dropWhile_cons] at h
    by_cases hb : p b = true
    · exact ih a (by simpa [hb] using h)
    · simp [hb] at h
      simpa [← h] using hb

lemma getLast?_dropWhile_of_not (p : Char → Bool) :
    ∀ (l : List Char) (a : Char), l.getLast? = some a → p a = false →
      (l.dropWhile p).getLast? = some a := by
  intro l
  induction l with
  | nil => intro a h _; simp at h
  | cons b t ih =>
    intro a h hp
    rw [List.dropWhile_cons]
    by_cases hb : p b = true
    · simp only [hb, if_true]
      cases t with
      | nil =>
        simp at h
        rw [h] at hb
        rw [hp] at hb
        exact absurd hb (by simp)
      | cons c u =>
        apply ih
        · rwa [List.getLast?_cons_cons] at h
        · exact hp
    · simp only [hb, if_false]
      exact h

lemma dropWhile_eq_self_of_head (p : Char → Bool) (l : List Char) (a : Char)
    (h1 : l.head? = some a) (h2 : p a = false) : l.dropWhile p = l := by
  cases l with
  | nil => rfl
  | cons b t =>
    simp at h1
    rw [List.dropWhile_cons, h1, h2]
    simp

lemma trimData_head_false (l : List Char) (a : Char) (h : (trimData l).head? = some a) :
    wsChar a = false := by
  unfold trimData at h
  rw [List.head?_reverse] at h
  cases hm : l.dropWhile wsChar with
  | nil => rw [hm] at h; simp at h
  | cons b t =>
    have hb : wsChar b = false := by
      apply head?_dropWhile_false wsChar l b
      rw [hm]; rfl
    have hrev : (l.dropWhile wsChar).reverse.getLast? = some b := by
      rw [List.getLast?_reverse, hm]; rfl
    have hlast := getLast?_dropWhile_of_not wsChar (l.dropWhile wsChar).reverse b hrev hb
    rw [hlast] at h
    rw [Option.some.injEq] at h
    rw [← h]; exact hb

lemma trimData_idem (l : List Char) : trimData (trimData l) = trimData l := by
  have h1 : (trimData l).dropWhile wsChar = trimData l := by
    cases hh : (trimData l).head? with
    | none =>
      have hnil : trimData l = [] := by
        cases htd : trimData l with
        | nil => rfl
        | cons x xs => rw [htd] at hh; simp at hh
      rw [hnil]; rfl
    | some a =>
      exact dropWhile_eq_self_of_head wsChar _ a hh (trimData_head_false l a hh)
  have h2 : (trimData l).reverse = ((l.dropWhile wsChar).reverse).dropWhile wsChar := by
    unfold trimData; rw [List.reverse_reverse]
  show (((trimData l).dropWhile wsChar).reverse.dropWhile wsChar).reverse = trimData l
  rw [h1, h2, dropWhile_dropWhile, ← h2, List.reverse_reverse]

lemma trimStr_trimStr (s : String) : trimStr (trimStr s) = trimStr s := by
  unfold trimStr
  exact congrArg String.mk (trimData_idem s.data)

lemma data_append (a b : String) : (a ++ b).data = a.data ++ b.data := rfl

lemma lowerStr_ne_empty {s : String} (h : s ≠ "") : lowerStr s ≠ "" := by
  intro hc
  apply h
  have h2 : s.data = [] := by simpa [lowerStr] using congrArg String.data hc
  cases s with
  | mk l =>
    simp only at h2
    subst h2
    rfl

lemma mk_cons_ne_empty (a : Char) (l : List Char) : String.mk (a :: l) ≠ "" := by
  intro h
  have := congrArg String.data h
  simp at this

lemma freshPid_ne_empty (n : Nat) : freshPid n ≠ "" := mk_cons_ne_empty _ _

lemma freshPrid_ne_empty (n : Nat) : freshPrid n ≠ "" := mk_cons_ne_empty _ _

lemma kvGet_kvSet_self (kv : KVStore) (k : String) (v : Mapping) :
    kvGet (kvSet kv k v) k = some v := by
  simp [kvGet, kvSet, List.find?_cons]

lemma dedupeKey_of_sku {e : Env} (h : e.skuT ≠ "") : e.dedupeKey = lowerStr e.skuT := by
  simp only [Env.dedupeKey, strOr]
  rw [if_neg h, if_neg h]

lemma dedupeKey_ne_empty_of_sku {e : Env} (h : e.skuT ≠ "") : e.dedupeKey ≠ "" := by
  rw [dedupeKey_of_sku h]; exact lowerStr_ne_empty h

lemma kvKey_of_key {e : Env} (h : e.dedupeKey ≠ "") :
    e.kvKey = "dbe:map:" ++ e.locId ++ ":" ++ e.dedupeKey := by
  simp only [Env.kvKey]; rw [if_neg h]

lemma kvKey_ne_empty {e : Env} (h : e.dedupeKey ≠ "") : e.kvKey ≠ "" := by
  rw [kvKey_of_key h]
  intro hc
  have hd := congrArg String.data hc
  rw [data_append, data_append, data_append] at hd
  simp at hd

lemma findProduct_of_hasProduct {c : Catalog} {pid : String}
    (h : c.hasProduct pid = true) : ∃ p, c.findProduct pid = some p ∧ p.id = pid := by
  unfold Catalog.hasProduct at h
  rw [List.any_eq_true] at h
  obtain ⟨p, hp, hpid⟩ := h
  have hs : (c.products.find? (fun q => decide (q.id = pid))).isSome :=
    List.find?_isSome.mpr ⟨p, hp, hpid⟩
  obtain ⟨q, hq⟩ := Option.isSome_iff_exists.mp hs
  refine ⟨q, hq, ?_⟩
  have := List.find?_some hq
  simpa using this

lemma hasProduct_putName (c : Catalog) (pid n pid' : String) :
    (c.putName pid n).hasProduct pid' = c.hasProduct pid' := by
  unfold Catalog.putName Catalog.hasProduct
  simp only [List.any_map]
  apply congrArg
  funext p
  by_cases h : p.id = pid <;> simp [h, Function.comp]

/-! Call-kind classifiers and structural lemmas about the pipeline stages. -/

/-- Name carried by a product-record write call (create or full-payload put),
`none` for every other call. -/
def productWriteName : Call → Option String
  | Call.createProduct n => some n
  | Call.putProduct _ n => some n
  | _ => none

/-- Price-endpoint calls (list, delete, create, update price). -/
def isPriceCall : Call → Bool
  | Call.listPrices _ => true
  | Call.deletePrice _ _ => true
  | Call.createPrice _ _ _ => true
  | Call.putPrice _ _ => true
  | _ => false

/-- Calls belonging to the stages after the product create/update (price
reconciliation and the verification re-fetch). -/
def isLaterStageCall : Call → Bool
  | Call.listPrices _ => true
  | Call.deletePrice _ _ => true
  | Call.createPrice _ _ _ => true
  | Call.putPrice _ _ => true
  | Call.getProduct _ => true
  | _ => false

/-- The name the product payload carries, per the naming rule of lines 311,
475 and 482-483. -/
def expectedName (e : Env) : String :=
  if e.req.upsert = true ∧ e.kvAvail = false then e.taggedName else e.rawName

lemma locateFallback_calls_eq (e : Env) (cat0 : Catalog) :
    (locateFallback e cat0).calls =
      if e.kvAvail = false then [Call.searchProducts (strTake e.searchTag 64)] else [] := by
  unfold locateFallback
  by_cases hk : e.kvAvail = false
  · rw [if_pos hk, if_pos hk]
    cases e.faults.searchStatus with
    | some s => rfl
    | none =>
      simp only []
      repeat' split
      all_goals rfl
  · rw [if_neg hk, if_neg hk]
    rfl

lemma locateExisting_calls (e : Env) (kv0 : KVStore) (cat0 : Catalog) :
    (locateExisting e kv0 cat0).calls = [] ∨
      (locateExisting e kv0 cat0).calls = [Call.searchProducts (strTake e.searchTag 64)] := by
  unfold locateExisting
  by_cases hup : e.req.upsert = true
  · rw [if_pos hup]
    simp only []
    split
    · split
      · left; rfl
      · rw [locateFallback_calls_eq]
        by_cases hk : e.kvAvail = false
        · rw [if_pos hk]; right; rfl
        · rw [if_neg hk]; left; rfl
    · rw [locateFallback_calls_eq]
      by_cases hk : e.kvAvail = false
      · rw [if_pos hk]; right; rfl
      · rw [if_neg hk]; left; rfl
  · rw [if_neg hup]
    left; rfl

lemma locateExisting_calls_kind (e : Env) (kv0 : KVStore) (cat0 : Catalog) :
    ∀ c ∈ (locateExisting e kv0 cat0).calls,
      productWriteName c = none ∧ isLaterStageCall c = false ∧ isPriceCall c = false := by
  intro c hc
  rcases locateExisting_calls e kv0 cat0 with h | h <;> rw [h] at hc
  · simp at hc
  · simp at hc
    subst hc
    exact ⟨rfl, rfl, rfl⟩

lemma locateExisting_update_upsert (e : Env) (kv0 : KVStore) (cat0 : Catalog) :
    (locateExisting e kv0 cat0).mode = "update" → e.req.upsert = true := by
  intro h
  by_contra hup
  unfold locateExisting at h
  rw [if_neg hup] at h
  simp [Located.create] at h

lemma putName_prices (c : Catalog) (pid n : String) : (c.putName pid n).prices = c.prices := rfl

lemma putName_collections (c : Catalog) (pid n : String) :
    (c.putName pid n).collections = c.collections := rfl

lemma addProduct_prices (c : Catalog) (n : String) : ((c.addProduct n).1).prices = c.prices := rfl

lemma addProduct_collections (c : Catalog) (n : String) :
    ((c.addProduct n).1).collections = c.collections := rfl

lemma hasProduct_addProduct (c : Catalog) (n : String) :
    ((c.addProduct n).1).hasProduct (c.addProduct n).2 = true := by
  simp [Catalog.addProduct, Catalog.hasProduct]

lemma productStage_create_fault (e : Env) (loc : Located) (rid : String) (cat : Catalog)
    (kv : KVStore) (calls : List Call) (s : Nat)
    (hm : loc.mode ≠ "update") (hf : e.faults.createProductStatus = some s) :
    productStage e loc rid cat kv calls =
      Sum.inl ⟨errResp s ("GHL " ++ toString s), cat, kv,
        calls ++ [Call.createProduct (expectedName e)]⟩ := by
  by_cases hc : e.req.upsert = true ∧ e.kvAvail = false <;>
    simp [productStage, expectedName, hm, hf, hc]

lemma productStage_inr (e : Env) (loc : Located) (rid : String) (cat : Catalog)
    (kv : KVStore) (calls : List Call)
    (hok : loc.mode = "update" ∨ e.faults.createProductStatus = none) :
    ∃ po, productStage e loc rid cat kv calls = Sum.inr po ∧
      po.cat.prices = cat.prices ∧ po.cat.collections = cat.collections ∧
      (∃ extra, po.calls = calls ++ extra ∧ ∀ c ∈ extra, isLaterStageCall c = false) ∧
      (loc.mode ≠ "update" →
        po.productId = freshPid cat.nextId ∧ po.cat.hasProduct po.productId = true) ∧
      (loc.mode = "update" → po.productId = loc.productId.getD "" ∧
        (cat.hasProduct (loc.productId.getD "") = true →
          po.cat.hasProduct po.productId = true)) := by
  by_cases hm : loc.mode = "update"
  · unfold productStage
    rw [if_pos hm]
    cases hput : e.faults.putProductStatus with
    | some s =>
      refine ⟨_, rfl, rfl, rfl, ⟨_, rfl, ?_⟩, by simp [hm], fun _ => ⟨rfl, fun hp => hp⟩⟩
      intro c hc
      simp at hc
      subst hc
      rfl
    | none =>
      by_cases hhp : cat.hasProduct (loc.productId.getD "") = true
      · simp only [hhp, if_true]
        refine ⟨_, rfl, putName_prices _ _ _, putName_collections _ _ _,
          ⟨_, rfl, ?_⟩, by simp [hm], fun _ => ⟨rfl, fun _ => ?_⟩⟩
        · intro c hc
          simp at hc
          subst hc
          rfl
        · rw [hasProduct_putName]
          exact hhp
      · simp only [hhp, if_false]
        refine ⟨_, rfl, rfl, rfl, ⟨_, rfl, ?_⟩, by simp [hm],
          fun _ => ⟨rfl, fun hp => absurd hp (by decide)⟩⟩
        intro c hc
        simp at hc
        subst hc
        rfl
  · have hf : e.faults.createProductStatus = none := by
      rcases hok with h | h
      · exact absurd h hm
      · exact h
    unfold productStage
    rw [if_neg hm, hf]
    cases hput : e.faults.putProductStatus with
    | some s =>
      refine ⟨_, rfl, addProduct_prices _ _, addProduct_collections _ _,
        ⟨_, List.append_assoc _ _ _, ?_⟩, fun _ => ⟨rfl, hasProduct_addProduct _ _⟩,
        fun h => absurd h hm⟩
      intro c hc
      simp at hc
      rcases hc with hc | hc <;> subst hc <;> rfl
    | none =>
      refine ⟨_, rfl, ?_, ?_, ⟨_, List.append_assoc _ _ _, ?_⟩,
        fun _ => ⟨rfl, ?_⟩, fun h => absurd h hm⟩
      · rw [putName_prices, addProduct_prices]
      · rw [putName_collections, addProduct_collections]
      · intro c hc
        simp at hc
        rcases hc with hc | hc <;> subst hc <;> rfl
      · rw [hasProduct_putName]
        exact hasProduct_addProduct _ _

/-- Calls of a product-stage result, whichever way it ended. -/
def sumCallsProd : Outcome ⊕ ProdOut → List Call
  | Sum.inl o => o.calls
  | Sum.inr po => po.calls

lemma payload_name_update (e : Env) (rid : String) (hup : e.req.upsert = true) :
    (if e.kvAvail = false then
        ({ name := e.taggedName, collectionIds := [rid] } : ProductPayload)
      else { name := e.rawName, collectionIds := [rid] }).name = expectedName e := by
  by_cases hkv : e.kvAvail = false <;> simp [hkv, expectedName, hup]

lemma payload_name_create (e : Env) (rid : String) :
    (if e.req.upsert = true ∧ e.kvAvail = false then
        ({ name := e.taggedName, collectionIds := [rid] } : ProductPayload)
      else { name := e.rawName, collectionIds := [rid] }).name = expectedName e := by
  by_cases hc : e.req.upsert = true ∧ e.kvAvail = false <;> simp [hc, expectedName]

lemma productStage_names (e : Env) (loc : Located) (rid : String) (cat : Catalog)
    (kv : KVStore) (calls : List Call) (hup : loc.mode = "update" → e.req.upsert = true) :
    ∃ extra, sumCallsProd (productStage e loc rid cat kv calls) = calls ++ extra ∧
      ∀ c ∈ extra, ∀ n, productWriteName c = some n → n = expectedName e := by
  by_cases hm : loc.mode = "update"
  · have hup' := hup hm
    unfold productStage
    rw [if_pos hm]
    cases hput : e.faults.putProductStatus with
    | some s =>
      refine ⟨_, rfl, ?_⟩
      intro c hc n hn
      simp at hc
      subst hc
      simp [productWriteName] at hn
      rw [← hn]
      exact payload_name_update e rid hup'
    | none =>
      by_cases hhp : cat.hasProduct (loc.productId.getD "") = true
      · simp only [hhp, if_true]
        refine ⟨_, rfl, ?_⟩
        intro c hc n hn
        simp at hc
        subst hc
        simp [productWriteName] at hn
        rw [← hn]
        exact payload_name_update e rid hup'
      · simp only [hhp, if_false]
        refine ⟨_, rfl, ?_⟩
        intro c hc n hn
        simp at hc
        subst hc
        simp [productWriteName] at hn
        rw [← hn]
        exact payload_name_update e rid hup'
  · unfold productStage
    rw [if_neg hm]
    cases hcf : e.faults.createProductStatus with
    | some s =>
      refine ⟨_, rfl, ?_⟩
      intro c hc n hn
      simp at hc
      subst hc
      simp [productWriteName] at hn
      rw [← hn]
      exact payload_name_create e rid
    | none =>
      cases hput : e.faults.putProductStatus with
      | some s =>
        refine ⟨_, List.append_assoc _ _ _, ?_⟩
        intro c hc n hn
        simp at hc
        rcases hc with hc | hc <;> subst hc <;> simp [productWriteName] at hn <;>
          rw [← hn] <;> exact payload_name_create e rid
      | none =>
        refine ⟨_, List.append_assoc _ _ _, ?_⟩
        intro c hc n hn
        simp at hc
        rcases hc with hc | hc <;> subst hc <;> simp [productWriteName] at hn <;>
          rw [← hn] <;> exact payload_name_create e rid

lemma isPriceCall_of_later (c : Call) (h : isLaterStageCall c = false) : isPriceCall c = false := by
  cases c <;> first | rfl | exact absurd h (by simp [isLaterStageCall])

lemma runDeletes_products (e : Env) (pid : String) :
    ∀ (ms : List Price) (cat : Catalog) (dd : DedupeInfo) (calls : List Call),
      ((runDeletes e pid ms cat dd calls).1).products = cat.products ∧
      ((runDeletes e pid ms cat dd calls).1).collections = cat.collections ∧
      ((runDeletes e pid ms cat dd calls).1).nextId = cat.nextId := by
  intro ms
  induction ms with
  | nil => intro cat dd calls; exact ⟨rfl, rfl, rfl⟩
  | cons p rest ih =>
    intro cat dd calls
    unfold runDeletes
    by_cases hid : p.id = ""
    · rw [if_pos hid]; exact ih cat dd _
    · rw [if_neg hid]
      by_cases hds : p.id ∈ e.faults.deleteFailIds
      · rw [if_pos hds]; exact ih cat _ _
      · rw [if_neg hds]
        by_cases hhp : cat.hasPrice pid p.id = true
        · rw [if_pos hhp]; exact ih (cat.removePrice p.id) _ _
        · rw [if_neg hhp]; exact ih cat _ _

lemma runDeletes_calls (e : Env) (pid : String) :
    ∀ (ms : List Price) (cat : Catalog) (dd : DedupeInfo) (calls : List Call),
      ∃ extra, (runDeletes e pid ms cat dd calls).2.2 = calls ++ extra ∧
        ∀ c ∈ extra, ∃ a b, c = Call.deletePrice a b := by
  intro ms
  induction ms with
  | nil => intro cat dd calls; exact ⟨[], by simp [runDeletes], by simp⟩
  | cons p rest ih =>
    intro cat dd calls
    unfold runDeletes
    by_cases hid : p.id = ""
    · rw [if_pos hid]; exact ih cat dd _
    · rw [if_neg hid]
      have step : ∀ (cat' : Catalog) (dd' : DedupeInfo),
          (∃ extra, (runDeletes e pid rest cat' dd'
              (calls ++ [Call.deletePrice pid p.id])).2.2 =
            (calls ++ [Call.deletePrice pid p.id]) ++ extra ∧
            ∀ c ∈ extra, ∃ a b, c = Call.deletePrice a b) →
          ∃ extra, (runDeletes e pid rest cat' dd'
              (calls ++ [Call.deletePrice pid p.id])).2.2 = calls ++ extra ∧
            ∀ c ∈ extra, ∃ a b, c = Call.deletePrice a b := by
        intro cat' dd' ⟨extra, hx, hall⟩
        refine ⟨[Call.deletePrice pid p.id] ++ extra, ?_, ?_⟩
        · rw [hx, List.append_assoc]
        · intro c hc
          rcases List.mem_append.mp hc with hc | hc
          · simp at hc; subst hc; exact ⟨_, _, rfl⟩
          · exact hall c hc
      by_cases hds : p.id ∈ e.faults.deleteFailIds
      · rw [if_pos hds]; exact step _ _ (ih _ _ _)
      · rw [if_neg hds]
        by_cases hhp : cat.hasPrice pid p.id = true
        · rw [if_pos hhp]; exact step _ _ (ih _ _ _)
        · rw [if_neg hhp]; exact step _ _ (ih _ _ _)

lemma runDeletes_dedupe_shape (e : Env) (pid : String) :
    ∀ (ms : List Price) (cat : Catalog) (dd : DedupeInfo) (calls : List Call),
      ((runDeletes e pid ms cat dd calls).2.1).attempted = dd.attempted ∧
      ∃ extra, ((runDeletes e pid ms cat dd calls).2.1).errors = dd.errors ++ extra := by
  intro ms
  induction ms with
  | nil => intro cat dd calls; exact ⟨rfl, [], by simp [runDeletes]⟩
  | cons p rest ih =>
    intro cat dd calls
    unfold runDeletes
    by_cases hid : p.id = ""
    · rw [if_pos hid]; exact ih cat dd _
    · rw [if_neg hid]
      by_cases hds : p.id ∈ e.faults.deleteFailIds
      · rw [if_pos hds]
        obtain ⟨ha, extra, hx⟩ := ih cat { dd with
          errors := dd.errors ++ [⟨"deletePrice", p.id, 500⟩] } (calls ++ [Call.deletePrice pid p.id])
        exact ⟨ha, _, by rw [hx, List.append_assoc]⟩
      · rw [if_neg hds]
        by_cases hhp : cat.hasPrice pid p.id = true
        · rw [if_pos hhp]
          exact ih (cat.removePrice p.id) _ _
        · rw [if_neg hhp]
          obtain ⟨ha, extra, hx⟩ := ih cat { dd with
            errors := dd.errors ++ [⟨"deletePrice", p.id, 404⟩] } (calls ++ [Call.deletePrice pid p.id])
          exact ⟨ha, _, by rw [hx, List.append_assoc]⟩

lemma plainCreate_spec (e : Env) (pid : String) (amt : Int) (act fact : String)
    (dd : DedupeInfo) (cat : Catalog) (calls : List Call) :
    (plainCreate e pid amt act fact dd cat calls).cat.products = cat.products ∧
    (plainCreate e pid amt act fact dd cat calls).cat.collections = cat.collections ∧
    (plainCreate e pid amt act fact dd cat calls).dedupe = dd ∧
    (plainCreate e pid amt act fact dd cat calls).priceResp.isSome = true ∧
    ∃ extra, (plainCreate e pid amt act fact dd cat calls).calls = calls ++ extra ∧
      ∀ c ∈ extra, productWriteName c = none := by
  unfold plainCreate
  cases e.faults.createPriceStatus with
  | some s =>
    refine ⟨rfl, rfl, rfl, rfl, [Call.createPrice pid e.skuT amt], rfl, ?_⟩
    intro c hc
    simp at hc
    subst hc
    rfl
  | none =>
    refine ⟨rfl, rfl, rfl, rfl, [Call.createPrice pid e.skuT amt], rfl, ?_⟩
    intro c hc
    simp at hc
    subst hc
    rfl

lemma priceStage_inr (e : Env) (mode pid : String) (epid : Option String)
    (cat : Catalog) (kv : KVStore) (calls : List Call) (hok : priceOkB e.req = true) :
    ∃ qo, priceStage e mode pid epid cat kv calls = Sum.inr qo ∧
      qo.cat.products = cat.products ∧ qo.cat.collections = cat.collections ∧
      (∃ extra, qo.calls = calls ++ extra ∧ ∀ c ∈ extra, productWriteName c = none) ∧
      (e.req.price.isSome = true → qo.priceResp.isSome = true) := by
  unfold priceStage
  cases hp : e.req.price with
  | none =>
    refine ⟨_, rfl, rfl, rfl, ⟨[], by simp, by simp⟩, by simp⟩
  | some j =>
    cases j with
    | nan => rw [priceOkB, hp] at hok; simp at hok
    | num a =>
      have hval : (0 ≤ a) ∧ compareBadB e.req = false := by
        rw [priceOkB, hp] at hok
        simpa using hok
      have ha : ¬ a < 0 := by omega
      have hcb : compareBadB e.req = false := hval.2
      simp only [if_neg ha, hcb, Bool.false_eq_true, if_false]
      by_cases hbr : e.req.upsert = true ∧ e.skuT ≠ ""
      · rw [if_pos hbr]
        obtain ⟨hprod, hcoll, hdd, hpr, extra2, hcalls2, hall2⟩ :=
          plainCreate_spec e pid a "dedupe_delete_then_create" "failed"
            (runDeletes e pid _ cat _ (calls ++ [Call.listPrices pid])).2.1
            (runDeletes e pid _ cat _ (calls ++ [Call.listPrices pid])).1
            (runDeletes e pid _ cat _ (calls ++ [Call.listPrices pid])).2.2
        refine ⟨_, rfl, ?_, ?_, ?_, fun _ => ?_⟩
        · rw [hprod, (runDeletes_products e pid _ cat _ _).1]
        · rw [hcoll, (runDeletes_products e pid _ cat _ _).2.1]
        · obtain ⟨extra1, hc1, hall1⟩ := runDeletes_calls e pid _ cat _
            (calls ++ [Call.listPrices pid])

          refine ⟨[Call.listPrices pid] ++ extra1 ++ extra2, ?_, ?_⟩
          · rw [hcalls2, hc1]
            simp [List.append_assoc]
          · intro c hc
            rcases List.mem_append.mp hc with hc | hc
            · rcases List.mem_append.mp hc with hc | hc
              · simp at hc; subst hc; rfl
              · obtain ⟨x, y, hxy⟩ := hall1 c hc
                subst hxy; rfl
            · exact hall2 c hc
        · exact hpr
      · rw [if_neg hbr]
        by_cases hup : mode = "update" ∧ epid.isSome = true
        · rw [if_pos hup]
          by_cases hfail :
              (e.faults.putPriceStatus.isSome || !cat.hasPrice pid (epid.getD "")) = true
          · rw [if_pos hfail]
            obtain ⟨hprod, hcoll, hdd, hpr, extra2, hcalls2, hall2⟩ :=
              plainCreate_spec e pid a "create_fallback_after_failed_update" "failed"
                ⟨false, [], []⟩ cat (calls ++ [Call.putPrice pid (epid.getD "")])
            refine ⟨_, rfl, hprod, hcoll, ?_, fun _ => hpr⟩
            refine ⟨[Call.putPrice pid (epid.getD "")] ++ extra2, ?_, ?_⟩
            · rw [hcalls2]; simp [List.append_assoc]
            · intro c hc
              rcases List.mem_append.mp hc with hc | hc
              · simp at hc; subst hc; rfl
              · exact hall2 c hc
          · rw [if_neg hfail]
            refine ⟨_, rfl, rfl, rfl, ⟨[Call.putPrice pid (epid.getD "")], rfl, ?_⟩, fun _ => rfl⟩
            intro c hc
            simp at hc
            subst hc
            rfl
        · rw [if_neg hup]
          obtain ⟨hprod, hcoll, hdd, hpr, extra2, hcalls2, hall2⟩ :=
            plainCreate_spec e pid a "create" "failed" ⟨false, [], []⟩ cat calls
          exact ⟨_, rfl, hprod, hcoll, ⟨extra2, hcalls2, hall2⟩, fun _ => hpr⟩

lemma priceStage_inl_of_bad (e : Env) (mode pid : String) (epid : Option String)
    (cat : Catalog) (kv : KVStore) (calls : List Call) (hbad : priceOkB e.req = false) :
    ∃ msg, priceStage e mode pid epid cat kv calls = Sum.inl ⟨errResp 400 msg, cat, kv, calls⟩ := by
  unfold priceStage
  cases hp : e.req.price with
  | none => rw [priceOkB, hp] at hbad; simp at hbad
  | some j =>
    cases j with
    | nan => exact ⟨_, rfl⟩
    | num a =>
      rw [priceOkB, hp] at hbad
      simp only [Bool.and_eq_false_iff, decide_eq_false_iff_not, not_le] at hbad
      by_cases ha : a < 0
      · simp only [if_pos ha]
        exact ⟨_, rfl⟩
      · have hcb : compareBadB e.req = true := by
          rcases hbad with h | h
          · omega
          · simpa using h
        simp only [if_neg ha, hcb, if_true]
        exact ⟨_, rfl⟩

lemma priceStage_dedupe_createfail (e : Env) (mode pid : String) (epid : Option String)
    (cat : Catalog) (kv : KVStore) (calls : List Call) (a : Int) (s : Nat)
    (hp : e.req.price = some (JNum.num a)) (ha : ¬ a < 0)
    (hcb : compareBadB e.req = false)
    (hbr : e.req.upsert = true ∧ e.skuT ≠ "") (hcf : e.faults.createPriceStatus = some s) :
    ∃ qo, priceStage e mode pid epid cat kv calls = Sum.inr qo ∧
      qo.action = "failed" ∧ qo.priceResp = some (PriceRes.err s) ∧
      qo.dedupe.attempted = true ∧
      ∀ s2, e.faults.listPricesStatus = some s2 →
        (⟨"listPrices", "", s2⟩ : DedupeErr) ∈ qo.dedupe.errors := by
  unfold priceStage
  simp only [hp, if_neg ha, hcb, Bool.false_eq_true, if_false, if_pos hbr]
  unfold plainCreate
  simp only [hcf]
  cases hlp : e.faults.listPricesStatus with
  | some s2 =>
    simp only [hlp]
    refine ⟨_, rfl, rfl, rfl, ?_, ?_⟩
    · exact (runDeletes_dedupe_shape e pid _ cat _ _).1
    · intro s3 hs3
      rw [Option.some.injEq] at hs3
      subst hs3
      obtain ⟨_, extra, hx⟩ := runDeletes_dedupe_shape e pid
        (List.filter (fun p => decide (lowerStr (trimStr p.sku) = lowerStr e.skuT)) [])
        cat ⟨true, [], [] ++ [⟨"listPrices", "", s2⟩]⟩ (calls ++ [Call.listPrices pid])
      rw [hx]
      simp
  | none =>
    simp only [hlp]
    refine ⟨_, rfl, rfl, rfl, ?_, ?_⟩
    · exact (runDeletes_dedupe_shape e pid _ cat _ _).1
    · intro s3 hs3
      exact absurd hs3 (by simp)

lemma mappingStage_saved_false (e : Env) (pid : String) (epid : Option String)
    (pr : Option PriceRes) (kv : KVStore)
    (h : e.req.upsert = true ∧ e.dedupeKey ≠ "") (hkv : e.kvAvail = true)
    (hf : e.faults.kvSetFails = true) :
    (mappingStage e pid epid pr kv).saved = false := by
  simp [mappingStage, h, hkv, hf]

lemma verifyStage_fault (e : Env) (mode pid rid : String) (dd : DedupeInfo) (pa : String)
    (pr : Option PriceRes) (m : Option Mapping) (ms : Bool) (cat : Catalog) (kv : KVStore)
    (calls : List Call) (s : Nat) (hget : e.faults.getProductStatus = some s) :
    verifyStage e mode pid rid dd pa pr m ms cat kv calls =
      ⟨errResp s ("GHL " ++ toString s), cat, kv, calls ++ [Call.getProduct pid]⟩ := by
  unfold verifyStage
  simp only [hget]

lemma verifyStage_ok (e : Env) (mode pid rid : String) (dd : DedupeInfo) (pa : String)
    (pr : Option PriceRes) (m : Option Mapping) (ms : Bool) (cat : Catalog) (kv : KVStore)
    (calls : List Call) (hget : e.faults.getProductStatus = none)
    (hhp : cat.hasProduct pid = true) :
    ∃ p, p.id = pid ∧
      verifyStage e mode pid rid dd pa pr m ms cat kv calls =
        ⟨{ status := if mode = "update" then 200 else 201, ok := true, error := "",
           mode := mode, productId := pid, collectionId := rid, collectionsSeen := [],
           dedupe := dd, priceAction := pa, priceResp := pr, mapping := m,
           mappingSaved := ms, verified := some p, usedKV := e.kvAvail,
           dedupeKey := e.dedupeKey }, cat, kv, calls ++ [Call.getProduct pid]⟩ := by
  obtain ⟨p, hfind, hpid⟩ := findProduct_of_hasProduct hhp
  refine ⟨p, hpid, ?_⟩
  unfold verifyStage
  simp only [hget, hfind]

lemma hasProduct_congr {c c' : Catalog} (h : c'.products = c.products) (pid : String) :
    c'.hasProduct pid = c.hasProduct pid := by
  unfold Catalog.hasProduct
  rw [h]

lemma handler_spine (e : Env) (kv0 : KVStore) (cat0 : Catalog)
    (hname : e.rawName ≠ "") (hcoll : e.collName ≠ "")
    (hguard : ¬(e.req.upsert = true ∧ e.dedupeKey = ""))
    (hfetch : e.faults.fetchCollectionsStatus = none)
    (hrid : ¬ collectionRid cat0.collections e.collName = "") :
    handler e kv0 cat0 =
      match productStage e (locateExisting e kv0 cat0)
          (collectionRid cat0.collections e.collName) cat0 kv0
          ([Call.fetchCollections] ++ (locateExisting e kv0 cat0).calls) with
      | Sum.inl o => o
      | Sum.inr po =>
        match priceStage e (locateExisting e kv0 cat0).mode po.productId
            (locateExisting e kv0 cat0).existingPriceId po.cat kv0 po.calls with
        | Sum.inl o => o
        | Sum.inr qo =>
          verifyStage e (locateExisting e kv0 cat0).mode po.productId
            (collectionRid cat0.collections e.collName) qo.dedupe qo.action qo.priceResp
            (mappingStage e po.productId (locateExisting e kv0 cat0).existingPriceId
              qo.priceResp kv0).mapping
            (mappingStage e po.productId (locateExisting e kv0 cat0).existingPriceId
              qo.priceResp kv0).saved
            qo.cat
            (mappingStage e po.productId (locateExisting e kv0 cat0).existingPriceId
              qo.priceResp kv0).kv
            qo.calls := by
  unfold handler
  rw [if_neg hname, if_neg hcoll, if_neg hguard]
  simp only [hfetch, hrid, if_false]

lemma handler_soft_success (e : Env) (kv0 : KVStore) (cat0 : Catalog)
    (hname : e.rawName ≠ "") (hcoll : e.collName ≠ "")
    (hguard : ¬(e.req.upsert = true ∧ e.dedupeKey = ""))
    (hfetch : e.faults.fetchCollectionsStatus = none)
    (hrid : ¬ collectionRid cat0.collections e.collName = "")
    (hcreate : e.faults.createProductStatus = none)
    (hget : e.faults.getProductStatus = none)
    (hok : priceOkB e.req = true)
    (hpres : (locateExisting e kv0 cat0).mode = "update" →
      cat0.hasProduct ((locateExisting e kv0 cat0).productId.getD "") = true) :
    (handler e kv0 cat0).resp.ok = true ∧
    ((handler e kv0 cat0).resp.status = 200 ∨ (handler e kv0 cat0).resp.status = 201) ∧
    (∃ p, (handler e kv0 cat0).resp.verified = some p) ∧
    (∃ pre pid, (handler e kv0 cat0).calls = pre ++ [Call.getProduct pid]) ∧
    (e.req.price.isSome = true → (handler e kv0 cat0).resp.priceResp.isSome = true) := by
  rw [handler_spine e kv0 cat0 hname hcoll hguard hfetch hrid]
  obtain ⟨po, hps, hprices, hcolls, ⟨x1, hc1, hk1⟩, hcreateCase, hupdCase⟩ :=
    productStage_inr e (locateExisting e kv0 cat0) (collectionRid cat0.collections e.collName)
      cat0 kv0 ([Call.fetchCollections] ++ (locateExisting e kv0 cat0).calls) (Or.inr hcreate)
  have hpo : po.cat.hasProduct po.productId = true := by
    by_cases hm : (locateExisting e kv0 cat0).mode = "update"
    · exact (hupdCase hm).2 (hpres hm)
    · exact (hcreateCase hm).2
  obtain ⟨qo, hqs, hqprod, hqcoll, ⟨x2, hc2, hk2⟩, hqpr⟩ :=
    priceStage_inr e (locateExisting e kv0 cat0).mode po.productId
      (locateExisting e kv0 cat0).existingPriceId po.cat kv0 po.calls hok
  have hqo : qo.cat.hasProduct po.productId = true := by
    rw [hasProduct_congr hqprod]
    exact hpo
  obtain ⟨p, hpid, hveq⟩ := verifyStage_ok e (locateExisting e kv0 cat0).mode po.productId
    (collectionRid cat0.collections e.collName) qo.dedupe qo.action qo.priceResp
    (mappingStage e po.productId (locateExisting e kv0 cat0).existingPriceId qo.priceResp
      kv0).mapping
    (mappingStage e po.productId (locateExisting e kv0 cat0).existingPriceId qo.priceResp
      kv0).saved
    qo.cat
    (mappingStage e po.productId (locateExisting e kv0 cat0).existingPriceId qo.priceResp
      kv0).kv
    qo.calls hget hqo
  simp only [hps, hqs]
  rw [hveq]
  refine ⟨rfl, ?_, ⟨p, rfl⟩, ⟨qo.calls, po.productId, rfl⟩, fun h => hqpr h⟩
  by_cases hm : (locateExisting e kv0 cat0).mode = "update"
  · rw [if_pos hm]; left; rfl
  · rw [if_neg hm]; right; rfl

/-! Concrete fixtures used by witness theorems. -/

def summerA : Collection := ⟨"Summer", "s1", "", ""⟩

def summerB : Collection := ⟨"Summer Sale", "s2", "", ""⟩

def reqW : Req :=
  { name := "Widget", description := "", collectionName := "Gadgets", upsert := true,
    sku := "W-100", externalId := "", price := some (JNum.num 19), compareAt := none }

def catW : Catalog :=
  { collections := [⟨"Gadgets", "col1", "", ""⟩], products := [], prices := [], nextId := 0 }

def envW : Env := { req := reqW, locId := "loc1", kvAvail := true, faults := noFaults }

/-- C7: collection resolution first looks for a case-insensitive trimmed
exact name match and only if none exists falls back to a case-insensitive
substring match, first hit wins; in particular, on collections "Summer" and
"Summer Sale" with target "summer" the resolver returns "Summer"'s id (even
though "Summer Sale" would substring-match). -/
theorem C7_collection_resolution :
    (∀ (cs : List Collection) (target : String) (c : Collection),
        lowerStr (trimStr target) ≠ "" → c ∈ cs →
        lowerStr (trimStr c.name) = lowerStr (trimStr target) →
        ∃ hit, findCollectionByName cs target = some hit ∧
          lowerStr (trimStr hit.name) = lowerStr (trimStr target)) ∧
    (∀ (cs : List Collection) (target : String),
        lowerStr (trimStr target) ≠ "" →
        (∀ c ∈ cs, lowerStr (trimStr c.name) ≠ lowerStr (trimStr target)) →
        findCollectionByName cs target =
          cs.find? (fun c => strIncludes (lowerStr (trimStr c.name))
            (lowerStr (trimStr target)))) ∧
    (findCollectionByName [summerA, summerB] "summer" = some summerA ∧
      normalizeCollectionId summerA = "s1" ∧
      strIncludes (lowerStr (trimStr summerB.name)) (lowerStr (trimStr "summer")) = true) := by
  refine ⟨?_, ?_, by decide, by decide, by decide⟩
  · intro cs target c htarget hc hexact
    unfold findCollectionByName
    rw [if_neg htarget]
    have hsome : (cs.find? (fun c => decide (lowerStr (trimStr c.name) =
        lowerStr (trimStr target)))).isSome :=
      List.find?_isSome.mpr ⟨c, hc, by simpa using hexact⟩
    obtain ⟨hit, hfind⟩ := Option.isSome_iff_exists.mp hsome
    rw [hfind]
    refine ⟨hit, rfl, ?_⟩
    have := List.find?_some hfind
    simpa using this
  · intro cs target htarget hnone
    unfold findCollectionByName
    rw [if_neg htarget]
    have hfind : cs.find? (fun c => decide (lowerStr (trimStr c.name) =
        lowerStr (trimStr target))) = none := by
      rw [List.find?_eq_none]
      intro c hc
      simpa using hnone c hc
    rw [hfind]

/-- Witness for C7 at a concrete input. -/
theorem C7_collection_resolution_witness :
    ∃ hit, findCollectionByName [summerA, summerB] "summer" = some hit ∧
      lowerStr (trimStr hit.name) = lowerStr (trimStr "summer") :=
  C7_collection_resolution.1 [summerA, summerB] "summer" summerA
    (by decide) (by decide) (by decide)

/-- C8: a POST request missing name or collectionName, or requesting upsert
with an empty dedupe key (no sku and no externalId), gets HTTP 400 and makes
zero downstream calls. -/
theorem C8_input_guards (e : Env) (kv0 : KVStore) (cat0 : Catalog) :
    (trimStr e.req.name = "" →
      handler e kv0 cat0 = ⟨errResp 400 "Missing required field: name", cat0, kv0, []⟩) ∧
    (trimStr e.req.name ≠ "" → trimStr e.req.collectionName = "" →
      handler e kv0 cat0 =
        ⟨errResp 400 "Missing required field: collectionName", cat0, kv0, []⟩) ∧
    (trimStr e.req.name ≠ "" → trimStr e.req.collectionName ≠ "" →
      e.req.upsert = true → trimStr e.req.sku = "" → trimStr e.req.externalId = "" →
      handler e kv0 cat0 =
        ⟨errResp 400 "Upsert requested but no dedupe key provided.", cat0, kv0, []⟩) := by
  refine ⟨?_, ?_, ?_⟩
  · intro h
    unfold handler
    rw [if_pos (show e.rawName = "" from h)]
  · intro h1 h2
    unfold handler
    rw [if_neg (show ¬ e.rawName = "" from h1), if_pos (show e.collName = "" from h2)]
  · intro h1 h2 h3 h4 h5
    have hdk : e.dedupeKey = "" := by
      simp only [Env.dedupeKey, Env.skuT, Env.extIdT, strOr]
      rw [h4, h5]
      simp
    unfold handler
    rw [if_neg (show ¬ e.rawName = "" from h1), if_neg (show ¬ e.collName = "" from h2),
      if_pos ⟨h3, hdk⟩]

/-- Witness for C8 at a concrete input. -/
theorem C8_input_guards_witness :
    handler { envW with req := { reqW with name := " " } } [] catW =
      ⟨errResp 400 "Missing required field: name", catW, [], []⟩ :=
  (C8_input_guards { envW with req := { reqW with name := " " } } [] catW).1 (by decide)

/-- C9: when the collection name matches no downstream collection (or the
match has no extractable id), the request ends 404 before any product
creation, leaving the catalog untouched, and the response carries the
observed collection names. -/
theorem C9_collection_not_found (e : Env) (kv0 : KVStore) (cat0 : Catalog)
    (hname : trimStr e.req.name ≠ "") (hcoll : trimStr e.req.collectionName ≠ "")
    (hguard : ¬(e.req.upsert = true ∧ e.dedupeKey = ""))
    (hfetch : e.faults.fetchCollectionsStatus = none)
    (hrid : collectionRid cat0.collections (trimStr e.req.collectionName) = "") :
    (handler e kv0 cat0).resp.status = 404 ∧ (handler e kv0 cat0).resp.ok = false ∧
    (handler e kv0 cat0).resp.collectionsSeen =
      (cat0.collections.take 25).map (fun c => (c.name, normalizeCollectionId c)) ∧
    (handler e kv0 cat0).calls = [Call.fetchCollections] ∧
    (handler e kv0 cat0).cat = cat0 := by
  have hrid' : collectionRid cat0.collections e.collName = "" := hrid
  have heq : handler e kv0 cat0 =
      ⟨{ errResp 404 "Collection not found (or missing id)" with
          collectionsSeen := (cat0.collections.take 25).map
            (fun c => (c.name, normalizeCollectionId c)) }, cat0, kv0,
        [Call.fetchCollections]⟩ := by
    unfold handler
    rw [if_neg (show ¬ e.rawName = "" from hname),
      if_neg (show ¬ e.collName = "" from hcoll), if_neg hguard]
    simp only [hfetch, hrid']
    rfl
  rw [heq]
  exact ⟨rfl, rfl, rfl, rfl, rfl⟩

/-- Witness for C9 at a concrete input. -/
theorem C9_collection_not_found_witness :
    (handler { envW with req := { reqW with collectionName := "Nope" } } [] catW).resp.status
        = 404 ∧
    (handler { envW with req := { reqW with collectionName := "Nope" } } [] catW).resp.ok
        = false ∧
    (handler { envW with req := { reqW with collectionName := "Nope" } } [] catW).resp.collectionsSeen
        = (catW.collections.take 25).map (fun c => (c.name, normalizeCollectionId c)) ∧
    (handler { envW with req := { reqW with collectionName := "Nope" } } [] catW).calls
        = [Call.fetchCollections] ∧
    (handler { envW with req := { reqW with collectionName := "Nope" } } [] catW).cat = catW :=
  C9_collection_not_found { envW with req := { reqW with collectionName := "Nope" } } [] catW
    (by decide) (by decide) (by decide) (by decide) (by decide)

lemma verifyStage_calls (e : Env) (mode pid rid : String) (dd : DedupeInfo) (pa : String)
    (pr : Option PriceRes) (m : Option Mapping) (ms : Bool) (cat : Catalog) (kv : KVStore)
    (calls : List Call) :
    (verifyStage e mode pid rid dd pa pr m ms cat kv calls).calls =
      calls ++ [Call.getProduct pid] := by
  unfold verifyStage
  cases e.faults.getProductStatus with
  | some s => rfl
  | none =>
    cases cat.findProduct pid with
    | none => rfl
    | some p => rfl

lemma priceStage_inl_calls (e : Env) (mode pid : String) (epid : Option String)
    (cat : Catalog) (kv : KVStore) (calls : List Call) (o : Outcome)
    (h : priceStage e mode pid epid cat kv calls = Sum.inl o) : o.calls = calls := by
  unfold priceStage at h
  cases hp : e.req.price with
  | none => rw [hp] at h; simp at h
  | some j =>
    cases j with
    | nan =>
      rw [hp] at h
      simp only [] at h
      injection h with h2
      rw [← h2]
    | num a =>
      rw [hp] at h
      by_cases ha : a < 0
      · simp only [if_pos ha] at h
        injection h with h2
        rw [← h2]
      · simp only [if_neg ha] at h
        by_cases hcb : compareBadB e.req = true
        · simp only [hcb, if_true] at h
          injection h with h2
          rw [← h2]
        · have hcb' : compareBadB e.req = false := by
            revert hcb
            cases compareBadB e.req <;> simp
          simp only [hcb', Bool.false_eq_true, if_false] at h
          by_cases hbr : e.req.upsert = true ∧ e.skuT ≠ ""
          · simp only [if_pos hbr] at h
            simp at h
          · simp only [if_neg hbr] at h
            by_cases hup : mode = "update" ∧ epid.isSome = true
            · simp only [if_pos hup] at h
              by_cases hfail :
                  (e.faults.putPriceStatus.isSome || !cat.hasPrice pid (epid.getD "")) = true
              · simp only [if_pos hfail] at h
                simp at h
              · simp only [if_neg hfail] at h
                simp at h
            · simp only [if_neg hup] at h
              simp at h

lemma handler_calls_structure (e : Env) (kv0 : KVStore) (cat0 : Catalog) :
    (handler e kv0 cat0).calls = [] ∨
    (handler e kv0 cat0).calls = [Call.fetchCollections] ∨
    (e.rawName ≠ "" ∧ e.collName ≠ "" ∧ ¬(e.req.upsert = true ∧ e.dedupeKey = "") ∧
      e.faults.fetchCollectionsStatus = none ∧
      ¬ collectionRid cat0.collections e.collName = "") := by
  unfold handler
  by_cases h1 : e.rawName = ""
  · rw [if_pos h1]; left; rfl
  · rw [if_neg h1]
    by_cases h2 : e.collName = ""
    · rw [if_pos h2]; left; rfl
    · rw [if_neg h2]
      by_cases h3 : e.req.upsert = true ∧ e.dedupeKey = ""
      · rw [if_pos h3]; left; rfl
      · rw [if_neg h3]
        cases hf : e.faults.fetchCollectionsStatus with
        | some s =>
          simp only [hf]
          right; left; trivial
        | none =>
          simp only [hf]
          by_cases h5 : collectionRid cat0.collections e.collName = ""
          · right; left
            simp [h5]
          · right; right
            exact ⟨h1, h2, h3, trivial, h5⟩

/-- C6: the name written by every product create/update call is the caller's
trimmed name prefixed with "[DBE:<dedupeKey>] " exactly when upsert
deduplication relies on the tag-search fallback (mapping store client
unavailable while upsert is requested), and exactly the trimmed name as
supplied otherwise. -/
theorem C6_payload_naming (e : Env) (kv0 : KVStore) (cat0 : Catalog) :
    ∀ c ∈ (handler e kv0 cat0).calls, ∀ n, productWriteName c = some n →
      (e.req.upsert = true ∧ e.kvAvail = false →
        n = "[DBE:" ++ e.dedupeKey ++ "] " ++ e.rawName) ∧
      (¬(e.req.upsert = true ∧ e.kvAvail = false) → n = e.rawName) := by
  intro c hc n hn
  rcases handler_calls_structure e kv0 cat0 with h | h | ⟨h1, h2, h3, h4, h5⟩
  · rw [h] at hc; simp at hc
  · rw [h] at hc
    simp at hc
    subst hc
    exact absurd hn (by simp [productWriteName])
  · rw [handler_spine e kv0 cat0 h1 h2 h3 h4 h5] at hc
    have hname : n = expectedName e →
        (e.req.upsert = true ∧ e.kvAvail = false →
          n = "[DBE:" ++ e.dedupeKey ++ "] " ++ e.rawName) ∧
        (¬(e.req.upsert = true ∧ e.kvAvail = false) → n = e.rawName) := by
      intro hexp
      constructor
      · intro hcond
        rw [hexp]
        unfold expectedName
        rw [if_pos hcond]
        unfold Env.taggedName
        have hkey : ¬ e.dedupeKey = "" := fun hk => h3 ⟨hcond.1, hk⟩
        rw [if_neg hkey]
      · intro hcond
        rw [hexp]
        unfold expectedName
        rw [if_neg hcond]
    obtain ⟨extra, hsc, hnames⟩ := productStage_names e (locateExisting e kv0 cat0)
      (collectionRid cat0.collections e.collName) cat0 kv0
      ([Call.fetchCollections] ++ (locateExisting e kv0 cat0).calls)
      (locateExisting_update_upsert e kv0 cat0)
    cases hps : productStage e (locateExisting e kv0 cat0)
        (collectionRid cat0.collections e.collName) cat0 kv0
        ([Call.fetchCollections] ++ (locateExisting e kv0 cat0).calls) with
    | inl o =>
      simp only [hps, sumCallsProd] at hsc
      simp only [hps] at hc
      rw [hsc] at hc
      rcases List.mem_append.mp hc with hc2 | hc2
      · rcases List.mem_append.mp hc2 with hc3 | hc3
        · simp at hc3; subst hc3; exact absurd hn (by simp [productWriteName])
        · have hw := (locateExisting_calls_kind e kv0 cat0 c hc3).1
          rw [hw] at hn; exact absurd hn (by simp)
      · exact hname (hnames c hc2 n hn)
    | inr po =>
      simp only [hps, sumCallsProd] at hsc
      simp only [hps] at hc
      cases hqs : priceStage e (locateExisting e kv0 cat0).mode po.productId
          (locateExisting e kv0 cat0).existingPriceId po.cat kv0 po.calls with
      | inl o2 =>
        simp only [hqs] at hc
        have hcalls := priceStage_inl_calls e _ po.productId _ po.cat kv0 po.calls o2 hqs
        rw [hcalls] at hc
        rw [hsc] at hc
        rcases List.mem_append.mp hc with hc2 | hc2
        · rcases List.mem_append.mp hc2 with hc3 | hc3
          · simp at hc3; subst hc3; exact absurd hn (by simp [productWriteName])
          · have hw := (locateExisting_calls_kind e kv0 cat0 c hc3).1
            rw [hw] at hn; exact absurd hn (by simp)
        · exact hname (hnames c hc2 n hn)
      | inr qo =>
        simp only [hqs] at hc
        rw [verifyStage_calls] at hc
        rcases List.mem_append.mp hc with hc2 | hc2
        case inr =>
          simp at hc2
          subst hc2
          exact absurd hn (by simp [productWriteName])
        by_cases hvalid : priceOkB e.req = true
        · obtain ⟨qo', hq', hqprod, hqcoll, ⟨extra2, hc2', hk2⟩, _⟩ :=
            priceStage_inr e (locateExisting e kv0 cat0).mode po.productId
              (locateExisting e kv0 cat0).existingPriceId po.cat kv0 po.calls hvalid
          rw [hqs] at hq'
          injection hq' with hq''
          subst hq''
          rw [hc2'] at hc2
          rcases List.mem_append.mp hc2 with hc3 | hc3
          · rw [hsc] at hc3
            rcases List.mem_append.mp hc3 with hc4 | hc4
            · rcases List.mem_append.mp hc4 with hc5 | hc5
              · simp at hc5; subst hc5; exact absurd hn (by simp [productWriteName])
              · have hw := (locateExisting_calls_kind e kv0 cat0 c hc5).1
                rw [hw] at hn; exact absurd hn (by simp)
            · exact hname (hnames c hc4 n hn)
          · have hw := hk2 c hc3
            rw [hw] at hn
            exact absurd hn (by simp)
        · have hbad : priceOkB e.req = false := by
            revert hvalid; cases priceOkB e.req <;> simp
          obtain ⟨msg, hmsg⟩ := priceStage_inl_of_bad e (locateExisting e kv0 cat0).mode
            po.productId (locateExisting e kv0 cat0).existingPriceId po.cat kv0 po.calls hbad
          rw [hqs] at hmsg
          exact absurd hmsg (by simp)

/-- Witness for C6 at a concrete input on the tag-search fallback path. -/
theorem C6_payload_naming_witness :
    ({ envW with kvAvail := false }.req.upsert = true ∧
        ({ envW with kvAvail := false } : Env).kvAvail = false →
      "[DBE:w-100] Widget" = "[DBE:" ++ ({ envW with kvAvail := false } : Env).dedupeKey ++
        "] " ++ ({ envW with kvAvail := false } : Env).rawName) ∧
    (¬({ envW with kvAvail := false }.req.upsert = true ∧
        ({ envW with kvAvail := false } : Env).kvAvail = false) →
      "[DBE:w-100] Widget" = ({ envW with kvAvail := false } : Env).rawName) :=
  C6_payload_naming { envW with kvAvail := false } [] catW
    (Call.createProduct "[DBE:w-100] Widget") (by decide) "[DBE:w-100] Widget" (by decide)

/-- Counterexample to C3 as stated: with a failing product update (HTTP 500
on the forced post-create PUT) the request still succeeds and the
verification stage still runs, so an update failure is not fatal. -/
theorem C3_counterexample :
    (handler { envW with faults := { noFaults with putProductStatus := some 500 } }
        [] catW).resp.ok = true ∧
    Call.getProduct "p0" ∈
      (handler { envW with faults := { noFaults with putProductStatus := some 500 } }
        [] catW).calls := by
  decide

/-- C3 amended: a non-2xx during product creation is fatal (failure response,
mapping store untouched, no later stage runs), while a non-2xx during the
product update calls (UPDATE-mode PUT and the forced post-create PUT) is
caught and swallowed: the request still succeeds and still verifies. -/
theorem C3_create_fatal_update_soft (e : Env) (kv0 : KVStore) (cat0 : Catalog)
    (hname : e.rawName ≠ "") (hcoll : e.collName ≠ "")
    (hguard : ¬(e.req.upsert = true ∧ e.dedupeKey = ""))
    (hfetch : e.faults.fetchCollectionsStatus = none)
    (hrid : ¬ collectionRid cat0.collections e.collName = "") :
    (∀ s, (locateExisting e kv0 cat0).mode ≠ "update" →
      e.faults.createProductStatus = some s →
      (handler e kv0 cat0).resp.ok = false ∧ (handler e kv0 cat0).resp.status = s ∧
      (handler e kv0 cat0).kv = kv0 ∧
      ∀ c ∈ (handler e kv0 cat0).calls, isLaterStageCall c = false) ∧
    (∀ s', e.faults.putProductStatus = some s' →
      e.faults.createProductStatus = none → e.faults.getProductStatus = none →
      priceOkB e.req = true →
      ((locateExisting e kv0 cat0).mode = "update" →
        cat0.hasProduct ((locateExisting e kv0 cat0).productId.getD "") = true) →
      (handler e kv0 cat0).resp.ok = true ∧
      ∃ pre pid, (handler e kv0 cat0).calls = pre ++ [Call.getProduct pid]) := by
  constructor
  · intro s hm hcf
    have heq : handler e kv0 cat0 = ⟨errResp s ("GHL " ++ toString s), cat0, kv0,
        ([Call.fetchCollections] ++ (locateExisting e kv0 cat0).calls) ++
          [Call.createProduct (expectedName e)]⟩ := by
      rw [handler_spine e kv0 cat0 hname hcoll hguard hfetch hrid,
        productStage_create_fault e (locateExisting e kv0 cat0)
          (collectionRid cat0.collections e.collName) cat0 kv0
          ([Call.fetchCollections] ++ (locateExisting e kv0 cat0).calls) s hm hcf]
    rw [heq]
    refine ⟨rfl, rfl, rfl, ?_⟩
    intro c hc
    rcases List.mem_append.mp hc with hc2 | hc2
    · rcases List.mem_append.mp hc2 with hc3 | hc3
      · simp at hc3; subst hc3; rfl
      · exact (locateExisting_calls_kind e kv0 cat0 c hc3).2.1
    · simp at hc2; subst hc2; rfl
  · intro s' _ hcreate hget hok hpres
    obtain ⟨h1, _, _, h4, _⟩ :=
      handler_soft_success e kv0 cat0 hname hcoll hguard hfetch hrid hcreate hget hok hpres
    exact ⟨h1, h4⟩

/-- Witness for the amended C3 at a concrete input (create failure aborts). -/
theorem C3_create_fatal_update_soft_witness :
    (handler { envW with faults := { noFaults with createProductStatus := some 502 } }
        [] catW).resp.ok = false ∧
    (handler { envW with faults := { noFaults with createProductStatus := some 502 } }
        [] catW).resp.status = 502 ∧
    (handler { envW with faults := { noFaults with createProductStatus := some 502 } }
        [] catW).kv = [] ∧
    ∀ c ∈ (handler { envW with faults := { noFaults with createProductStatus := some 502 } }
        [] catW).calls, isLaterStageCall c = false :=
  (C3_create_fatal_update_soft
      { envW with faults := { noFaults with createProductStatus := some 502 } } [] catW
      (by decide) (by decide) (by decide) (by decide) (by decide)).1
    502 (by decide) (by decide)

/-- Counterexample to C4 as stated: a request with amount -5 is rejected with
HTTP 400, but only after the collection fetch and the product create/update
have already gone downstream (the product persists in the catalog). -/
theorem C4_counterexample :
    (handler { envW with req := { reqW with price := some (JNum.num (-5)) } }
        [] catW).resp.status = 400 ∧
    (handler { envW with req := { reqW with price := some (JNum.num (-5)) } }
        [] catW).resp.ok = false ∧
    Call.fetchCollections ∈
      (handler { envW with req := { reqW with price := some (JNum.num (-5)) } }
        [] catW).calls ∧
    Call.createProduct "Widget" ∈
      (handler { envW with req := { reqW with price := some (JNum.num (-5)) } }
        [] catW).calls ∧
    (handler { envW with req := { reqW with price := some (JNum.num (-5)) } }
        [] catW).cat.products =
      [⟨"p0", "Widget"⟩] := by
  decide

/-- C4 amended: a non-numeric or negative amount (or compareAt) yields a 400
client error before any price-endpoint call (though after the collection
fetch and the product create/update), and an amount of exactly 0 is
accepted. -/
theorem C4_price_validation (e : Env) (kv0 : KVStore) (cat0 : Catalog)
    (hname : e.rawName ≠ "") (hcoll : e.collName ≠ "")
    (hguard : ¬(e.req.upsert = true ∧ e.dedupeKey = ""))
    (hfetch : e.faults.fetchCollectionsStatus = none)
    (hrid : ¬ collectionRid cat0.collections e.collName = "") :
    (priceOkB e.req = false →
      ((locateExisting e kv0 cat0).mode = "update" ∨
        e.faults.createProductStatus = none) →
      (handler e kv0 cat0).resp.status = 400 ∧ (handler e kv0 cat0).resp.ok = false ∧
      ∀ c ∈ (handler e kv0 cat0).calls, isPriceCall c = false) ∧
    (e.req.price = some (JNum.num 0) → compareBadB e.req = false →
      e.faults.createProductStatus = none → e.faults.getProductStatus = none →
      ((locateExisting e kv0 cat0).mode = "update" →
        cat0.hasProduct ((locateExisting e kv0 cat0).productId.getD "") = true) →
      (handler e kv0 cat0).resp.ok = true ∧
      (handler e kv0 cat0).resp.priceResp.isSome = true) := by
  constructor
  · intro hbad hok
    rw [handler_spine e kv0 cat0 hname hcoll hguard hfetch hrid]
    obtain ⟨po, hps, _, _, ⟨x1, hc1, hk1⟩, _, _⟩ :=
      productStage_inr e (locateExisting e kv0 cat0)
        (collectionRid cat0.collections e.collName) cat0 kv0
        ([Call.fetchCollections] ++ (locateExisting e kv0 cat0).calls) hok
    obtain ⟨msg, hmsg⟩ := priceStage_inl_of_bad e (locateExisting e kv0 cat0).mode
      po.productId (locateExisting e kv0 cat0).existingPriceId po.cat kv0 po.calls hbad
    simp only [hps, hmsg]
    refine ⟨rfl, rfl, ?_⟩
    intro c hc
    rw [hc1] at hc
    rcases List.mem_append.mp hc with hc2 | hc2
    · rcases List.mem_append.mp hc2 with hc3 | hc3
      · simp at hc3; subst hc3; rfl
      · exact (locateExisting_calls_kind e kv0 cat0 c hc3).2.2
    · exact isPriceCall_of_later c (hk1 c hc2)
  · intro hp0 hcb hcreate hget hpres
    have hok : priceOkB e.req = true := by
      rw [priceOkB, hp0, hcb]
      rfl
    obtain ⟨h1, _, _, _, h5⟩ :=
      handler_soft_success e kv0 cat0 hname hcoll hguard hfetch hrid hcreate hget hok hpres
    exact ⟨h1, h5 (by rw [hp0]; rfl)⟩

/-- Witness for the amended C4 at concrete inputs (amount -5 rejected with no
price call; amount 0 accepted). -/
theorem C4_price_validation_witness :
    ((handler { envW with req := { reqW with price := some (JNum.num (-5)) } }
        [] catW).resp.status = 400 ∧
      (handler { envW with req := { reqW with price := some (JNum.num (-5)) } }
        [] catW).resp.ok = false ∧
      ∀ c ∈ (handler { envW with req := { reqW with price := some (JNum.num (-5)) } }
        [] catW).calls, isPriceCall c = false) ∧
    ((handler { envW with req := { reqW with price := some (JNum.num 0) } }
        [] catW).resp.ok = true ∧
      (handler { envW with req := { reqW with price := some (JNum.num 0) } }
        [] catW).resp.priceResp.isSome = true) :=
  ⟨(C4_price_validation { envW with req := { reqW with price := some (JNum.num (-5)) } }
      [] catW (by decide) (by decide) (by decide) (by decide) (by decide)).1
      (by decide) (Or.inr (by decide)),
    (C4_price_validation { envW with req := { reqW with price := some (JNum.num 0) } }
      [] catW (by decide) (by decide) (by decide) (by decide) (by decide)).2
      (by decide) (by decide) (by decide) (by decide) (by decide)⟩

lemma handler_success_core (e : Env) (kv0 : KVStore) (cat0 : Catalog)
    (hname : e.rawName ≠ "") (hcoll : e.collName ≠ "")
    (hguard : ¬(e.req.upsert = true ∧ e.dedupeKey = ""))
    (hfetch : e.faults.fetchCollectionsStatus = none)
    (hrid : ¬ collectionRid cat0.collections e.collName = "")
    (hcreate : e.faults.createProductStatus = none)
    (hget : e.faults.getProductStatus = none)
    (hok : priceOkB e.req = true)
    (hpres : (locateExisting e kv0 cat0).mode = "update" →
      cat0.hasProduct ((locateExisting e kv0 cat0).productId.getD "") = true) :
    ∃ po qo p,
      productStage e (locateExisting e kv0 cat0) (collectionRid cat0.collections e.collName)
        cat0 kv0 ([Call.fetchCollections] ++ (locateExisting e kv0 cat0).calls) =
          Sum.inr po ∧
      priceStage e (locateExisting e kv0 cat0).mode po.productId
        (locateExisting e kv0 cat0).existingPriceId po.cat kv0 po.calls = Sum.inr qo ∧
      p.id = po.productId ∧
      handler e kv0 cat0 =
        ⟨{ status := if (locateExisting e kv0 cat0).mode = "update" then 200 else 201,
           ok := true, error := "", mode := (locateExisting e kv0 cat0).mode,
           productId := po.productId,
           collectionId := collectionRid cat0.collections e.collName,
           collectionsSeen := [], dedupe := qo.dedupe, priceAction := qo.action,
           priceResp := qo.priceResp,
           mapping := (mappingStage e po.productId
             (locateExisting e kv0 cat0).existingPriceId qo.priceResp kv0).mapping,
           mappingSaved := (mappingStage e po.productId
             (locateExisting e kv0 cat0).existingPriceId qo.priceResp kv0).saved,
           verified := some p, usedKV := e.kvAvail, dedupeKey := e.dedupeKey },
          qo.cat,
          (mappingStage e po.productId (locateExisting e kv0 cat0).existingPriceId
            qo.priceResp kv0).kv,
          qo.calls ++ [Call.getProduct po.productId]⟩ := by
  obtain ⟨po, hps, hprices, hcolls, ⟨x1, hc1, hk1⟩, hcreateCase, hupdCase⟩ :=
    productStage_inr e (locateExisting e kv0 cat0) (collectionRid cat0.collections e.collName)
      cat0 kv0 ([Call.fetchCollections] ++ (locateExisting e kv0 cat0).calls) (Or.inr hcreate)
  have hpo : po.cat.hasProduct po.productId = true := by
    by_cases hm : (locateExisting e kv0 cat0).mode = "update"
    · exact (hupdCase hm).2 (hpres hm)
    · exact (hcreateCase hm).2
  obtain ⟨qo, hqs, hqprod, hqcoll, ⟨x2, hc2, hk2⟩, hqpr⟩ :=
    priceStage_inr e (locateExisting e kv0 cat0).mode po.productId
      (locateExisting e kv0 cat0).existingPriceId po.cat kv0 po.calls hok
  have hqo : qo.cat.hasProduct po.productId = true := by
    rw [hasProduct_congr hqprod]
    exact hpo
  obtain ⟨p, hpid, hveq⟩ := verifyStage_ok e (locateExisting e kv0 cat0).mode po.productId
    (collectionRid cat0.collections e.collName) qo.dedupe qo.action qo.priceResp
    (mappingStage e po.productId (locateExisting e kv0 cat0).existingPriceId qo.priceResp
      kv0).mapping
    (mappingStage e po.productId (locateExisting e kv0 cat0).existingPriceId qo.priceResp
      kv0).saved
    qo.cat
    (mappingStage e po.productId (locateExisting e kv0 cat0).existingPriceId qo.priceResp
      kv0).kv
    qo.calls hget hqo
  refine ⟨po, qo, p, hps, hqs, hpid, ?_⟩
  rw [handler_spine e kv0 cat0 hname hcoll hguard hfetch hrid]
  simp only [hps, hqs]
  rw [hveq]

/-- C5: once the product create/update has succeeded, downstream failures in
price reconciliation or mapping persistence are caught and recorded in the
response (priceAction "failed", a listPrices entry in priceDedupe.errors,
mappingSaved false) while the response still reports ok with a verification
snapshot. -/
theorem C5_soft_failures_after_product (e : Env) (kv0 : KVStore) (cat0 : Catalog)
    (hname : e.rawName ≠ "") (hcoll : e.collName ≠ "")
    (hguard : ¬(e.req.upsert = true ∧ e.dedupeKey = ""))
    (hfetch : e.faults.fetchCollectionsStatus = none)
    (hrid : ¬ collectionRid cat0.collections e.collName = "")
    (hcreate : e.faults.createProductStatus = none)
    (hget : e.faults.getProductStatus = none)
    (hok : priceOkB e.req = true)
    (hpres : (locateExisting e kv0 cat0).mode = "update" →
      cat0.hasProduct ((locateExisting e kv0 cat0).productId.getD "") = true) :
    (handler e kv0 cat0).resp.ok = true ∧
    ((handler e kv0 cat0).resp.status = 200 ∨ (handler e kv0 cat0).resp.status = 201) ∧
    (∃ p, (handler e kv0 cat0).resp.verified = some p) ∧
    (∀ a s, e.req.price = some (JNum.num a) → ¬ a < 0 → compareBadB e.req = false →
      e.req.upsert = true ∧ e.skuT ≠ "" → e.faults.createPriceStatus = some s →
      (handler e kv0 cat0).resp.priceAction = "failed" ∧
      (handler e kv0 cat0).resp.priceResp = some (PriceRes.err s) ∧
      ∀ s2, e.faults.listPricesStatus = some s2 →
        (⟨"listPrices", "", s2⟩ : DedupeErr) ∈ (handler e kv0 cat0).resp.dedupe.errors) ∧
    (e.req.upsert = true → e.dedupeKey ≠ "" → e.kvAvail = true →
      e.faults.kvSetFails = true → (handler e kv0 cat0).resp.mappingSaved = false) := by
  obtain ⟨po, qo, p, hps, hqs, hpid, heq⟩ := handler_success_core e kv0 cat0 hname hcoll
    hguard hfetch hrid hcreate hget hok hpres
  rw [heq]
  refine ⟨rfl, ?_, ⟨p, rfl⟩, ?_, ?_⟩
  · by_cases hm : (locateExisting e kv0 cat0).mode = "update"
    · rw [if_pos hm]; left; rfl
    · rw [if_neg hm]; right; rfl
  · intro a s hp ha hcb hbr hcf
    obtain ⟨qo', hq', hact, hpr, hatt, herr⟩ := priceStage_dedupe_createfail e
      (locateExisting e kv0 cat0).mode po.productId
      (locateExisting e kv0 cat0).existingPriceId po.cat kv0 po.calls a s hp ha hcb hbr hcf
    rw [hqs] at hq'
    injection hq' with hq''
    subst hq''
    exact ⟨hact, hpr, herr⟩
  · intro hup hkey hkv hf
    exact mappingStage_saved_false e po.productId
      (locateExisting e kv0 cat0).existingPriceId qo.priceResp kv0 ⟨hup, hkey⟩ hkv hf

/-- Fault schedule used by the C5 witness: failing price create, failing
price listing, failing mapping write. -/
def faultsC5 : Faults :=
  { fetchCollectionsStatus := none, searchStatus := none, createProductStatus := none,
    putProductStatus := none, listPricesStatus := some 503, deleteFailIds := [],
    createPriceStatus := some 500, putPriceStatus := none, getProductStatus := none,
    kvGetFails := false, kvSetFails := true }

/-- Environment used by the C5 witness. -/
def envC5 : Env := { envW with faults := faultsC5 }

/-- Witness for C5 at a concrete input with failing price create, failing
price listing and failing mapping write. -/
theorem C5_soft_failures_after_product_witness :
    (handler envC5 [] catW).resp.ok = true ∧
    (handler envC5 [] catW).resp.priceAction = "failed" ∧
    (⟨"listPrices", "", 503⟩ : DedupeErr) ∈ (handler envC5 [] catW).resp.dedupe.errors ∧
    (handler envC5 [] catW).resp.mappingSaved = false := by
  have h := C5_soft_failures_after_product envC5 [] catW
    (by decide) (by decide) (by decide) (by decide) (by decide) (by decide) (by decide)
    (by decide) (by decide)
  obtain ⟨hok2, _, _, hrec, hmap⟩ := h
  obtain ⟨hact, _, herr⟩ := hrec 19 500 (by decide) (by decide) (by decide)
    (by decide) (by decide)
  exact ⟨hok2, hact, herr 503 (by decide), hmap (by decide) (by decide) (by decide) (by decide)⟩

/-- C10: when every stage through price reconciliation and mapping
persistence has run but the final verification re-fetch rejects, the whole
response reports failure with the downstream status, even though the product
is durably present in the catalog. -/
theorem C10_verify_failure_is_hard (e : Env) (kv0 : KVStore) (cat0 : Catalog)
    (hname : e.rawName ≠ "") (hcoll : e.collName ≠ "")
    (hguard : ¬(e.req.upsert = true ∧ e.dedupeKey = ""))
    (hfetch : e.faults.fetchCollectionsStatus = none)
    (hrid : ¬ collectionRid cat0.collections e.collName = "")
    (hcreate : e.faults.createProductStatus = none)
    (hok : priceOkB e.req = true)
    (hpres : (locateExisting e kv0 cat0).mode = "update" →
      cat0.hasProduct ((locateExisting e kv0 cat0).productId.getD "") = true)
    (s : Nat) (hget : e.faults.getProductStatus = some s) :
    (handler e kv0 cat0).resp.ok = false ∧
    (handler e kv0 cat0).resp.status = s ∧
    ∃ pid, (handler e kv0 cat0).cat.hasProduct pid = true ∧
      ∃ pre, (handler e kv0 cat0).calls = pre ++ [Call.getProduct pid] := by
  obtain ⟨po, hps, hprices, hcolls, ⟨x1, hc1, hk1⟩, hcreateCase, hupdCase⟩ :=
    productStage_inr e (locateExisting e kv0 cat0) (collectionRid cat0.collections e.collName)
      cat0 kv0 ([Call.fetchCollections] ++ (locateExisting e kv0 cat0).calls) (Or.inr hcreate)
  have hpo : po.cat.hasProduct po.productId = true := by
    by_cases hm : (locateExisting e kv0 cat0).mode = "update"
    · exact (hupdCase hm).2 (hpres hm)
    · exact (hcreateCase hm).2
  obtain ⟨qo, hqs, hqprod, hqcoll, ⟨x2, hc2, hk2⟩, hqpr⟩ :=
    priceStage_inr e (locateExisting e kv0 cat0).mode po.productId
      (locateExisting e kv0 cat0).existingPriceId po.cat kv0 po.calls hok
  have hqo : qo.cat.hasProduct po.productId = true := by
    rw [hasProduct_congr hqprod]
    exact hpo
  rw [handler_spine e kv0 cat0 hname hcoll hguard hfetch hrid]
  simp only [hps, hqs]
  rw [verifyStage_fault e (locateExisting e kv0 cat0).mode po.productId
    (collectionRid cat0.collections e.collName) qo.dedupe qo.action qo.priceResp
    (mappingStage e po.productId (locateExisting e kv0 cat0).existingPriceId qo.priceResp
      kv0).mapping
    (mappingStage e po.productId (locateExisting e kv0 cat0).existingPriceId qo.priceResp
      kv0).saved
    qo.cat
    (mappingStage e po.productId (locateExisting e kv0 cat0).existingPriceId qo.priceResp
      kv0).kv
    qo.calls s hget]
  exact ⟨rfl, rfl, po.productId, hqo, qo.calls, rfl⟩

/-- Witness for C10 at a concrete input (verify rejects with 502). -/
theorem C10_verify_failure_is_hard_witness :
    (handler { envW with faults := { noFaults with getProductStatus := some 502 } }
        [] catW).resp.ok = false ∧
    (handler { envW with faults := { noFaults with getProductStatus := some 502 } }
        [] catW).resp.status = 502 ∧
    ∃ pid, (handler { envW with faults := { noFaults with getProductStatus := some 502 } }
        [] catW).cat.hasProduct pid = true ∧
      ∃ pre, (handler { envW with faults := { noFaults with getProductStatus := some 502 } }
        [] catW).calls = pre ++ [Call.getProduct pid] :=
  C10_verify_failure_is_hard
    { envW with faults := { noFaults with getProductStatus := some 502 } } [] catW
    (by decide) (by decide) (by decide) (by decide) (by decide) (by decide) (by decide)
    (by decide) 502 (by decide)

lemma hasPrice_removePrice (cat : Catalog) (pid i j : String) (hne : j ≠ i) :
    (cat.removePrice i).hasPrice pid j = cat.hasPrice pid j := by
  unfold Catalog.removePrice Catalog.hasPrice
  rw [Bool.eq_iff_iff]
  simp only [List.any_eq_true, List.mem_filter, decide_eq_true_eq]
  constructor
  · rintro ⟨x, ⟨hx, _⟩, hpx⟩
    exact ⟨x, hx, hpx⟩
  · rintro ⟨x, hx, hpx⟩
    refine ⟨x, ⟨hx, ?_⟩, hpx⟩
    rw [hpx.1]
    exact hne

/-- A catalog price survives the dedupe delete loop over the matches `ms`
when it is not a successfully deleted match. -/
def keepAfterDeletes (e : Env) (ms : List Price) (q : Price) : Bool :=
  decide (¬ ∃ p ∈ ms, p.id ∉ e.faults.deleteFailIds ∧ q.id = p.id)

/-- The delete of this price id is scheduled to fail. -/
def delFails (e : Env) (p : Price) : Bool := decide (p.id ∈ e.faults.deleteFailIds)

/-- The delete of this price id is scheduled to succeed. -/
def delSucceeds (e : Env) (p : Price) : Bool := decide (p.id ∉ e.faults.deleteFailIds)

/-- Full characterisation of the delete loop under a well-formed price list:
exactly one delete call per match, failures collected in `errors`, successes
in `deleted`, and the successfully deleted ids removed from the catalog. -/
lemma runDeletes_spec (e : Env) (pid : String) :
    ∀ (ms : List Price) (cat : Catalog) (dd : DedupeInfo) (calls : List Call),
      (∀ p ∈ ms, p.id ≠ "") →
      ms.Pairwise (fun x y => x.id ≠ y.id) →
      (∀ p ∈ ms, cat.hasPrice pid p.id = true) →
      runDeletes e pid ms cat dd calls =
        ({ cat with prices := cat.prices.filter (keepAfterDeletes e ms) },
         { dd with
           deleted := dd.deleted ++ (ms.filter (delSucceeds e)).map (fun p => p.id),
           errors := dd.errors ++ (ms.filter (delFails e)).map
             (fun p => ⟨"deletePrice", p.id, 500⟩) },
         calls ++ ms.map (fun p => Call.deletePrice pid p.id)) := by
  intro ms
  induction ms with
  | nil =>
    intro cat dd calls _ _ _
    have h0 : List.filter (keepAfterDeletes e []) cat.prices = cat.prices := by
      rw [List.filter_eq_self]
      intro q _
      simp [keepAfterDeletes]
    simp [runDeletes, h0]
  | cons p rest ih =>
    intro cat dd calls hids hpw hpres
    have hid : p.id ≠ "" := hids p (List.mem_cons_self _ _)
    have hidr : ∀ q ∈ rest, q.id ≠ "" := fun q hq => hids q (List.mem_cons_of_mem _ hq)
    have hpwp : ∀ q ∈ rest, p.id ≠ q.id := (List.pairwise_cons.mp hpw).1
    have hpwr : rest.Pairwise (fun x y => x.id ≠ y.id) := (List.pairwise_cons.mp hpw).2
    unfold runDeletes
    rw [if_neg hid]
    by_cases hds : p.id ∈ e.faults.deleteFailIds
    · rw [if_pos hds]
      rw [ih cat _ _ hidr hpwr (fun q hq => hpres q (List.mem_cons_of_mem _ hq))]
      have hpred : ∀ q ∈ cat.prices,
          keepAfterDeletes e rest q = keepAfterDeletes e (p :: rest) q := by
        intro q _
        unfold keepAfterDeletes
        rw [decide_eq_decide]
        constructor
        · intro h hex
          apply h
          obtain ⟨pp, hpp, hx⟩ := hex
          rcases List.mem_cons.mp hpp with hppa | hppb
          · subst hppa
            exact absurd hds hx.1
          · exact ⟨pp, hppb, hx⟩
        · intro h hex
          apply h
          obtain ⟨pp, hpp, hx⟩ := hex
          exact ⟨pp, List.mem_cons_of_mem _ hpp, hx⟩
      rw [List.filter_congr hpred]
      simp [hds, List.filter_cons, List.append_assoc, delFails, delSucceeds]
    · rw [if_neg hds]
      rw [if_pos (hpres p (List.mem_cons_self _ _))]
      have hpresr : ∀ q ∈ rest, (cat.removePrice p.id).hasPrice pid q.id = true := by
        intro q hq
        rw [hasPrice_removePrice cat pid p.id q.id (fun hc => hpwp q hq hc.symm)]
        exact hpres q (List.mem_cons_of_mem _ hq)
      rw [ih (cat.removePrice p.id) _ _ hidr hpwr hpresr]
      have hcat : (cat.removePrice p.id).prices.filter (keepAfterDeletes e rest) =
          cat.prices.filter (keepAfterDeletes e (p :: rest)) := by
        unfold Catalog.removePrice keepAfterDeletes
        rw [List.filter_filter]
        apply List.filter_congr
        intro q _
        rw [Bool.eq_iff_iff]
        simp only [Bool.and_eq_true, decide_eq_true_eq]
        constructor
        · rintro ⟨h1, h2⟩ hex
          obtain ⟨pp, hpp, hx⟩ := hex
          rcases List.mem_cons.mp hpp with hppa | hppb
          · subst hppa
            exact h2 (hx.2)
          · exact h1 ⟨pp, hppb, hx⟩
        · intro h
          constructor
          · intro hex
            obtain ⟨pp, hpp, hx⟩ := hex
            exact h ⟨pp, List.mem_cons_of_mem _ hpp, hx⟩
          · intro hqid
            exact h ⟨p, List.mem_cons_self _ _, hds, hqid⟩
      rw [hcat]
      simp [hds, List.filter_cons, List.append_assoc, delFails, delSucceeds]
      exact ⟨rfl, rfl, rfl⟩

/-- The listed prices of the product whose SKU matches the request's SKU
case-insensitively (handler lines 563-565). -/
def hitsOf (cat : Catalog) (pid : String) (e : Env) : List Price :=
  (cat.pricesOf pid).filter (fun p => decide (lowerStr (trimStr p.sku) = lowerStr e.skuT))

lemma priceStage_dedupe_success (e : Env) (mode pid : String) (epid : Option String)
    (cat : Catalog) (kv : KVStore) (calls : List Call) (a : Int)
    (hp : e.req.price = some (JNum.num a)) (ha : ¬ a < 0) (hcb : compareBadB e.req = false)
    (hup : e.req.upsert = true) (hsku : e.skuT ≠ "")
    (hlist : e.faults.listPricesStatus = none) (hcp : e.faults.createPriceStatus = none)
    (hids : ∀ p ∈ cat.prices, p.id ≠ "")
    (hpw : cat.prices.Pairwise (fun x y => x.id ≠ y.id)) :
    priceStage e mode pid epid cat kv calls = Sum.inr
      ⟨"dedupe_delete_then_create", some (PriceRes.ok (freshPrid cat.nextId)),
       ⟨true, ((hitsOf cat pid e).filter (delSucceeds e)).map (fun p => p.id),
        ((hitsOf cat pid e).filter (delFails e)).map
          (fun p => ⟨"deletePrice", p.id, 500⟩)⟩,
       { cat with
         prices := cat.prices.filter (keepAfterDeletes e (hitsOf cat pid e)) ++
           [⟨freshPrid cat.nextId, pid, e.skuT, a⟩],
         nextId := cat.nextId + 1 },
       calls ++ [Call.listPrices pid] ++
         (hitsOf cat pid e).map (fun p => Call.deletePrice pid p.id) ++
         [Call.createPrice pid e.skuT a]⟩ := by
  have hhm : ∀ p ∈ hitsOf cat pid e, p ∈ cat.prices ∧ p.productId = pid := by
    intro p hph
    unfold hitsOf Catalog.pricesOf at hph
    have h1 := List.mem_filter.mp hph
    have h2 := List.mem_filter.mp h1.1
    exact ⟨h2.1, by simpa using h2.2⟩
  have h1 : ∀ p ∈ hitsOf cat pid e, p.id ≠ "" := fun p hph => hids p (hhm p hph).1
  have h2 : (hitsOf cat pid e).Pairwise (fun x y => x.id ≠ y.id) := by
    unfold hitsOf Catalog.pricesOf
    exact hpw.sublist ((List.filter_sublist _).trans (List.filter_sublist _))
  have h3 : ∀ p ∈ hitsOf cat pid e, cat.hasPrice pid p.id = true := by
    intro p hph
    unfold Catalog.hasPrice
    rw [List.any_eq_true]
    exact ⟨p, (hhm p hph).1, by simp [(hhm p hph).2]⟩
  unfold priceStage
  simp only [hp, if_neg ha, hcb, Bool.false_eq_true, if_false, hlist]
  rw [if_pos (show e.req.upsert = true ∧ e.skuT ≠ "" from ⟨hup, hsku⟩)]
  rw [show List.filter (fun p => decide (lowerStr (trimStr p.sku) = lowerStr e.skuT))
    (Catalog.pricesOf cat pid) = hitsOf cat pid e from rfl]
  rw [runDeletes_spec e pid (hitsOf cat pid e) cat (⟨true, [], []⟩ : DedupeInfo)
    (calls ++ [Call.listPrices pid]) h1 h2 h3]
  unfold plainCreate
  simp only [hcp]
  rfl

/-- C2: with upsert and a non-empty sku and a valid supplied amount, the
reconciler lists the product's prices, issues one delete per price whose SKU
matches case-insensitively (collecting each delete failure in the response,
not fatally), and only after all the deletes creates exactly one fresh
price; when the deletes succeed, at most one live price with that SKU
remains on the product. -/
theorem C2_price_dedupe (e : Env) (kv0 : KVStore) (cat0 : Catalog)
    (hname : e.rawName ≠ "") (hcoll : e.collName ≠ "")
    (hguard : ¬(e.req.upsert = true ∧ e.dedupeKey = ""))
    (hfetch : e.faults.fetchCollectionsStatus = none)
    (hrid : ¬ collectionRid cat0.collections e.collName = "")
    (hup : e.req.upsert = true) (hsku : e.skuT ≠ "")
    (a : Int) (hp : e.req.price = some (JNum.num a)) (ha : ¬ a < 0)
    (hcb : compareBadB e.req = false)
    (hcreate : e.faults.createProductStatus = none)
    (hget : e.faults.getProductStatus = none)
    (hlist : e.faults.listPricesStatus = none)
    (hcp : e.faults.createPriceStatus = none)
    (hpres : (locateExisting e kv0 cat0).mode = "update" →
      cat0.hasProduct ((locateExisting e kv0 cat0).productId.getD "") = true)
    (hids : ∀ p ∈ cat0.prices, p.id ≠ "")
    (hpw : cat0.prices.Pairwise (fun x y => x.id ≠ y.id)) :
    ∃ pid prid hits,
      hits = (cat0.prices.filter (fun q => decide (q.productId = pid))).filter
        (fun q => decide (lowerStr (trimStr q.sku) = lowerStr e.skuT)) ∧
      (handler e kv0 cat0).resp.ok = true ∧
      (handler e kv0 cat0).resp.dedupe.attempted = true ∧
      (handler e kv0 cat0).resp.dedupe.deleted =
        (hits.filter (delSucceeds e)).map (fun p => p.id) ∧
      (handler e kv0 cat0).resp.dedupe.errors =
        (hits.filter (delFails e)).map (fun p => ⟨"deletePrice", p.id, 500⟩) ∧
      (handler e kv0 cat0).resp.priceAction = "dedupe_delete_then_create" ∧
      (∃ pre, (handler e kv0 cat0).calls = pre ++ [Call.listPrices pid] ++
        hits.map (fun p => Call.deletePrice pid p.id) ++
        [Call.createPrice pid e.skuT a, Call.getProduct pid]) ∧
      ((∀ p ∈ hits, p.id ∉ e.faults.deleteFailIds) →
        (handler e kv0 cat0).cat.prices.filter
          (fun q => decide (q.productId = pid ∧
            lowerStr (trimStr q.sku) = lowerStr e.skuT)) = [⟨prid, pid, e.skuT, a⟩]) := by
  obtain ⟨po, hps, hprices, hcolls, ⟨x1, hc1, hk1⟩, hcreateCase, hupdCase⟩ :=
    productStage_inr e (locateExisting e kv0 cat0) (collectionRid cat0.collections e.collName)
      cat0 kv0 ([Call.fetchCollections] ++ (locateExisting e kv0 cat0).calls) (Or.inr hcreate)
  have hpo : po.cat.hasProduct po.productId = true := by
    by_cases hm : (locateExisting e kv0 cat0).mode = "update"
    · exact (hupdCase hm).2 (hpres hm)
    · exact (hcreateCase hm).2
  have hids' : ∀ p ∈ po.cat.prices, p.id ≠ "" := by rw [hprices]; exact hids
  have hpw' : po.cat.prices.Pairwise (fun x y => x.id ≠ y.id) := by rw [hprices]; exact hpw
  have hqs := priceStage_dedupe_success e (locateExisting e kv0 cat0).mode po.productId
    (locateExisting e kv0 cat0).existingPriceId po.cat kv0 po.calls a hp ha hcb hup hsku
    hlist hcp hids' hpw'
  have hhits : hitsOf po.cat po.productId e =
      (cat0.prices.filter (fun q => decide (q.productId = po.productId))).filter
        (fun q => decide (lowerStr (trimStr q.sku) = lowerStr e.skuT)) := by
    unfold hitsOf Catalog.pricesOf
    rw [hprices]
  refine ⟨po.productId, freshPrid po.cat.nextId, hitsOf po.cat po.productId e, hhits, ?_⟩
  have hqcatproducts : ({ po.cat with
      prices := po.cat.prices.filter (keepAfterDeletes e (hitsOf po.cat po.productId e)) ++
        [⟨freshPrid po.cat.nextId, po.productId, e.skuT, a⟩],
      nextId := po.cat.nextId + 1 } : Catalog).hasProduct po.productId = true := by
    rw [hasProduct_congr rfl]
    exact hpo
  obtain ⟨p, hpid, hveq⟩ := verifyStage_ok e (locateExisting e kv0 cat0).mode po.productId
    (collectionRid cat0.collections e.collName) _ _ _
    (mappingStage e po.productId (locateExisting e kv0 cat0).existingPriceId
      (some (PriceRes.ok (freshPrid po.cat.nextId))) kv0).mapping
    (mappingStage e po.productId (locateExisting e kv0 cat0).existingPriceId
      (some (PriceRes.ok (freshPrid po.cat.nextId))) kv0).saved
    _
    (mappingStage e po.productId (locateExisting e kv0 cat0).existingPriceId
      (some (PriceRes.ok (freshPrid po.cat.nextId))) kv0).kv
    _ hget hqcatproducts
  rw [handler_spine e kv0 cat0 hname hcoll hguard hfetch hrid]
  simp only [hps, hqs]
  rw [hveq]
  refine ⟨rfl, rfl, rfl, rfl, rfl, ⟨po.calls, by simp [List.append_assoc]⟩, ?_⟩
  intro hsucc
  rw [List.filter_append]
  have hold : (po.cat.prices.filter
      (keepAfterDeletes e (hitsOf po.cat po.productId e))).filter
      (fun q => decide (q.productId = po.productId ∧
        lowerStr (trimStr q.sku) = lowerStr e.skuT)) = [] := by
    rw [List.filter_eq_nil_iff]
    intro q hq
    have hq1 := List.mem_filter.mp hq
    rw [decide_eq_true_eq]
    rintro ⟨hqpid, hqsku⟩
    have hqh : q ∈ hitsOf po.cat po.productId e := by
      unfold hitsOf Catalog.pricesOf
      exact List.mem_filter.mpr ⟨List.mem_filter.mpr ⟨hq1.1, by simp [hqpid]⟩, by simp [hqsku]⟩
    have hkeep := hq1.2
    unfold keepAfterDeletes at hkeep
    rw [decide_eq_true_eq] at hkeep
    exact hkeep ⟨q, hqh, hsucc q hqh, rfl⟩
  rw [hold]
  have hnew : List.filter (fun q => decide (q.productId = po.productId ∧
      lowerStr (trimStr q.sku) = lowerStr e.skuT))
      ([⟨freshPrid po.cat.nextId, po.productId, e.skuT, a⟩] : List Price) =
      ([⟨freshPrid po.cat.nextId, po.productId, e.skuT, a⟩] : List Price) := by
    rw [List.filter_cons]
    have : lowerStr (trimStr e.skuT) = lowerStr e.skuT := by
      unfold Env.skuT
      rw [trimStr_trimStr]
    simp [this]
  rw [hnew]
  rfl

/-- Catalog for the C2 witness: the product and one prior price with the
same SKU already exist. -/
def catW2 : Catalog :=
  { collections := [⟨"Gadgets", "col1", "", ""⟩], products := [⟨"p0", "Widget"⟩],
    prices := [⟨"q1", "p0", "W-100", 19⟩], nextId := 2 }

/-- Mapping store for the C2 witness: the dedupe key is already mapped. -/
def kvW2 : KVStore := [("dbe:map:loc1:w-100", ⟨"p0", some "q1"⟩)]

/-- Witness for C2 at a concrete input (second sync of the same SKU). -/
theorem C2_price_dedupe_witness :
    ∃ pid prid hits,
      hits = (catW2.prices.filter (fun q => decide (q.productId = pid))).filter
        (fun q => decide (lowerStr (trimStr q.sku) = lowerStr envW.skuT)) ∧
      (handler envW kvW2 catW2).resp.ok = true ∧
      (handler envW kvW2 catW2).resp.dedupe.attempted = true ∧
      (handler envW kvW2 catW2).resp.dedupe.deleted =
        (hits.filter (delSucceeds envW)).map (fun p => p.id) ∧
      (handler envW kvW2 catW2).resp.dedupe.errors =
        (hits.filter (delFails envW)).map (fun p => ⟨"deletePrice", p.id, 500⟩) ∧
      (handler envW kvW2 catW2).resp.priceAction = "dedupe_delete_then_create" ∧
      (∃ pre, (handler envW kvW2 catW2).calls = pre ++ [Call.listPrices pid] ++
        hits.map (fun p => Call.deletePrice pid p.id) ++
        [Call.createPrice pid envW.skuT 19, Call.getProduct pid]) ∧
      ((∀ p ∈ hits, p.id ∉ envW.faults.deleteFailIds) →
        (handler envW kvW2 catW2).cat.prices.filter
          (fun q => decide (q.productId = pid ∧
            lowerStr (trimStr q.sku) = lowerStr envW.skuT)) = [⟨prid, pid, envW.skuT, 19⟩]) :=
  C2_price_dedupe envW kvW2 catW2 (by decide) (by decide) (by decide) (by decide) (by decide)
    (by decide) (by decide) 19 (by decide) (by decide) (by decide) (by decide) (by decide)
    (by decide) (by decide) (by decide) (by decide) (by decide)

lemma locateExisting_create_kv_miss (e : Env) (kv0 : KVStore) (cat0 : Catalog)
    (hup : e.req.upsert = true) (hkv : e.kvAvail = true)
    (hmiss : kvGet kv0 e.kvKey = none) :
    locateExisting e kv0 cat0 = Located.create := by
  have hnofb : locateFallback e cat0 = Located.create := by
    unfold locateFallback
    rw [if_neg (by simp [hkv])]
  unfold locateExisting
  rw [if_pos hup]
  by_cases hc : e.kvAvail = true ∧ e.kvKey ≠ "" ∧ e.faults.kvGetFails = false
  · simp only [if_pos hc, hmiss]
    exact hnofb
  · simp only [if_neg hc]
    exact hnofb

lemma locateExisting_update_kv_hit (e : Env) (kv0 : KVStore) (cat0 : Catalog)
    (m : Mapping) (hup : e.req.upsert = true) (hkv : e.kvAvail = true)
    (hkey : e.kvKey ≠ "") (hnf : e.faults.kvGetFails = false)
    (hhit : kvGet kv0 e.kvKey = some m) (hpid : m.productId ≠ "") :
    locateExisting e kv0 cat0 =
      { mode := "update", productId := some m.productId,
        existingPriceId :=
          match m.priceId with
          | some p => if p = "" then none else some p
          | none => none,
        calls := [] } := by
  unfold locateExisting
  rw [if_pos hup]
  rw [if_pos (show e.kvAvail = true ∧ e.kvKey ≠ "" ∧ e.faults.kvGetFails = false from
    ⟨hkv, hkey, hnf⟩)]
  simp [hhit, hpid]

/-- First upsert run with an available but empty mapping store against an
empty downstream catalog: mode create, one product and one price created,
mapping persisted. -/
lemma handler_first_upsert (e : Env) (kv0 : KVStore) (cat0 : Catalog) (rid : String) (a : Int)
    (hname : e.rawName ≠ "") (hcoll : e.collName ≠ "")
    (hup : e.req.upsert = true) (hsku : e.skuT ≠ "") (hkv : e.kvAvail = true)
    (hf : e.faults = noFaults)
    (hp : e.req.price = some (JNum.num a)) (ha : ¬ a < 0) (hcb : compareBadB e.req = false)
    (hmiss : kvGet kv0 e.kvKey = none)
    (hrid : collectionRid cat0.collections e.collName = rid) (hrid2 : rid ≠ "")
    (hprod : cat0.products = []) (hpri : cat0.prices = []) :
    handler e kv0 cat0 =
      ⟨{ status := 201, ok := true, error := "", mode := "create",
         productId := freshPid cat0.nextId, collectionId := rid, collectionsSeen := [],
         dedupe := ⟨true, [], []⟩, priceAction := "dedupe_delete_then_create",
         priceResp := some (PriceRes.ok (freshPrid (cat0.nextId + 1))),
         mapping := some ⟨freshPid cat0.nextId, some (freshPrid (cat0.nextId + 1))⟩,
         mappingSaved := true, verified := some ⟨freshPid cat0.nextId, e.rawName⟩,
         usedKV := true, dedupeKey := e.dedupeKey },
       { collections := cat0.collections,
         products := [⟨freshPid cat0.nextId, e.rawName⟩],
         prices := [⟨freshPrid (cat0.nextId + 1), freshPid cat0.nextId, e.skuT, a⟩],
         nextId := cat0.nextId + 2 },
       kvSet kv0 e.kvKey ⟨freshPid cat0.nextId, some (freshPrid (cat0.nextId + 1))⟩,
       [Call.fetchCollections, Call.createProduct e.rawName,
        Call.putProduct (freshPid cat0.nextId) e.rawName,
        Call.listPrices (freshPid cat0.nextId),
        Call.createPrice (freshPid cat0.nextId) e.skuT a,
        Call.getProduct (freshPid cat0.nextId)]⟩ := by
  have hkey : e.dedupeKey ≠ "" := dedupeKey_ne_empty_of_sku hsku
  have hguard : ¬(e.req.upsert = true ∧ e.dedupeKey = "") := fun h => hkey h.2
  have hloc : locateExisting e kv0 cat0 = Located.create :=
    locateExisting_create_kv_miss e kv0 cat0 hup hkv hmiss
  have hps : productStage e Located.create rid cat0 kv0
      ([Call.fetchCollections] ++ Located.create.calls) =
      Sum.inr ⟨freshPid cat0.nextId,
        { collections := cat0.collections,
          products := [⟨freshPid cat0.nextId, e.rawName⟩], prices := [],
          nextId := cat0.nextId + 1 },
        [Call.fetchCollections, Call.createProduct e.rawName,
         Call.putProduct (freshPid cat0.nextId) e.rawName]⟩ := by
    unfold productStage
    rw [if_neg (show ¬ Located.create.mode = "update" by decide)]
    rw [if_neg (show ¬(e.req.upsert = true ∧ e.kvAvail = false) from
      fun h => by rw [hkv] at h; exact absurd h.2 (by decide))]
    rw [hf]
    simp [noFaults, Catalog.addProduct, Catalog.putName, Catalog.hasProduct,
      hprod, hpri, Located.create]
  have hqs := priceStage_dedupe_success e Located.create.mode (freshPid cat0.nextId)
    Located.create.existingPriceId
    { collections := cat0.collections,
      products := [⟨freshPid cat0.nextId, e.rawName⟩], prices := [],
      nextId := cat0.nextId + 1 }
    kv0
    [Call.fetchCollections, Call.createProduct e.rawName,
     Call.putProduct (freshPid cat0.nextId) e.rawName]
    a hp ha hcb hup hsku (by rw [hf]; rfl) (by rw [hf]; rfl)
    (by intro p hp2; simp at hp2) (by simp)
  have hhits : hitsOf
      { collections := cat0.collections,
        products := [⟨freshPid cat0.nextId, e.rawName⟩], prices := [],
        nextId := cat0.nextId + 1 }
      (freshPid cat0.nextId) e = [] := rfl
  rw [hhits] at hqs
  simp only [List.filter_nil, List.map_nil, List.append_nil, List.nil_append] at hqs
  have hmap : mappingStage e (freshPid cat0.nextId) Located.create.existingPriceId
      (some (PriceRes.ok (freshPrid (cat0.nextId + 1)))) kv0 =
      ⟨some ⟨freshPid cat0.nextId, some (freshPrid (cat0.nextId + 1))⟩, true,
       kvSet kv0 e.kvKey ⟨freshPid cat0.nextId, some (freshPrid (cat0.nextId + 1))⟩⟩ := by
    unfold mappingStage
    rw [if_pos ⟨hup, hkey⟩]
    simp [Located.create, freshPrid_ne_empty (cat0.nextId + 1), hkv, hf, noFaults]
  rw [handler_spine e kv0 cat0 hname hcoll hguard (by rw [hf]; rfl) (by rw [hrid]; exact hrid2)]
  rw [hloc, hrid]
  simp only [hps, hqs, hmap]
  unfold verifyStage
  rw [hf]
  simp only [noFaults]
  have hfind : Catalog.findProduct
      { collections := cat0.collections,
        products := [⟨freshPid cat0.nextId, e.rawName⟩],
        prices := [⟨freshPrid (cat0.nextId + 1), freshPid cat0.nextId, e.skuT, a⟩],
        nextId := cat0.nextId + 2 }
      (freshPid cat0.nextId) = some ⟨freshPid cat0.nextId, e.rawName⟩ := by
    unfold Catalog.findProduct
    simp
  simp only [hfind]
  rw [hkv]
  rfl

/-- Second upsert run: the mapping store resolves the key to the stored
product id, the run updates in place, deletes the prior price with the same
SKU and creates its replacement, then overwrites the mapping. -/
lemma handler_second_upsert (e : Env) (kv0 : KVStore) (cat0 : Catalog) (rid : String)
    (pid prid1 nm : String) (a0 a : Int)
    (hname : e.rawName ≠ "") (hcoll : e.collName ≠ "")
    (hup : e.req.upsert = true) (hsku : e.skuT ≠ "") (hkv : e.kvAvail = true)
    (hf : e.faults = noFaults)
    (hp : e.req.price = some (JNum.num a)) (ha : ¬ a < 0) (hcb : compareBadB e.req = false)
    (hpid : pid ≠ "") (hprid : prid1 ≠ "")
    (hhit : kvGet kv0 e.kvKey = some ⟨pid, some prid1⟩)
    (hrid : collectionRid cat0.collections e.collName = rid) (hrid2 : rid ≠ "")
    (hprodEq : cat0.products = [⟨pid, nm⟩])
    (hpriEq : cat0.prices = [⟨prid1, pid, e.skuT, a0⟩]) :
    handler e kv0 cat0 =
      ⟨{ status := 200, ok := true, error := "", mode := "update",
         productId := pid, collectionId := rid, collectionsSeen := [],
         dedupe := ⟨true, [prid1], []⟩, priceAction := "dedupe_delete_then_create",
         priceResp := some (PriceRes.ok (freshPrid cat0.nextId)),
         mapping := some ⟨pid, some (freshPrid cat0.nextId)⟩,
         mappingSaved := true, verified := some ⟨pid, e.rawName⟩,
         usedKV := true, dedupeKey := e.dedupeKey },
       { collections := cat0.collections, products := [⟨pid, e.rawName⟩],
         prices := [⟨freshPrid cat0.nextId, pid, e.skuT, a⟩],
         nextId := cat0.nextId + 1 },
       kvSet kv0 e.kvKey ⟨pid, some (freshPrid cat0.nextId)⟩,
       [Call.fetchCollections, Call.putProduct pid e.rawName, Call.listPrices pid,
        Call.deletePrice pid prid1, Call.createPrice pid e.skuT a,
        Call.getProduct pid]⟩ := by
  have hkey : e.dedupeKey ≠ "" := dedupeKey_ne_empty_of_sku hsku
  have hguard : ¬(e.req.upsert = true ∧ e.dedupeKey = "") := fun h => hkey h.2
  have hskuTrim : lowerStr (trimStr e.skuT) = lowerStr e.skuT := by
    unfold Env.skuT
    rw [trimStr_trimStr]
  have hloc : locateExisting e kv0 cat0 = ⟨"update", some pid, some prid1, []⟩ := by
    rw [locateExisting_update_kv_hit e kv0 cat0 ⟨pid, some prid1⟩ hup hkv
      (kvKey_ne_empty hkey) (by rw [hf]; rfl) hhit (by simpa using hpid)]
    simp [hprid]
  have hps : productStage e (⟨"update", some pid, some prid1, []⟩ : Located) rid cat0 kv0
      [Call.fetchCollections] =
      Sum.inr ⟨pid,
        { collections := cat0.collections, products := [⟨pid, e.rawName⟩],
          prices := [⟨prid1, pid, e.skuT, a0⟩], nextId := cat0.nextId },
        [Call.fetchCollections, Call.putProduct pid e.rawName]⟩ := by
    unfold productStage
    rw [if_pos (show (⟨"update", some pid, some prid1, []⟩ : Located).mode = "update"
      from rfl)]
    rw [hf]
    simp [noFaults, hkv, Catalog.hasProduct, Catalog.putName, hprodEq, hpriEq]
  have hqs := priceStage_dedupe_success e "update" pid (some prid1)
    { collections := cat0.collections, products := [⟨pid, e.rawName⟩],
      prices := [⟨prid1, pid, e.skuT, a0⟩], nextId := cat0.nextId }
    kv0 [Call.fetchCollections, Call.putProduct pid e.rawName]
    a hp ha hcb hup hsku (by rw [hf]; rfl) (by rw [hf]; rfl)
    (by intro p hp2; simp at hp2; rw [hp2]; exact hprid)
    (by simp)
  have hhits : hitsOf
      { collections := cat0.collections, products := [⟨pid, e.rawName⟩],
        prices := [⟨prid1, pid, e.skuT, a0⟩], nextId := cat0.nextId }
      pid e = [⟨prid1, pid, e.skuT, a0⟩] := by
    unfold hitsOf Catalog.pricesOf
    simp [hskuTrim]
  rw [hhits] at hqs
  have hdelS : List.filter (delSucceeds e) [(⟨prid1, pid, e.skuT, a0⟩ : Price)] =
      [(⟨prid1, pid, e.skuT, a0⟩ : Price)] := by
    simp [delSucceeds, hf, noFaults]
  have hdelF : List.filter (delFails e) [(⟨prid1, pid, e.skuT, a0⟩ : Price)] = [] := by
    simp [delFails, hf, noFaults]
  have hkeep : List.filter (keepAfterDeletes e [(⟨prid1, pid, e.skuT, a0⟩ : Price)])
      [(⟨prid1, pid, e.skuT, a0⟩ : Price)] = [] := by
    simp [keepAfterDeletes, hf, noFaults]
  have hmap : mappingStage e pid (some prid1)
      (some (PriceRes.ok (freshPrid cat0.nextId))) kv0 =
      ⟨some ⟨pid, some (freshPrid cat0.nextId)⟩, true,
       kvSet kv0 e.kvKey ⟨pid, some (freshPrid cat0.nextId)⟩⟩ := by
    unfold mappingStage
    rw [if_pos ⟨hup, hkey⟩]
    simp [freshPrid_ne_empty cat0.nextId, hkv, hf, noFaults]
  rw [handler_spine e kv0 cat0 hname hcoll hguard (by rw [hf]; rfl)
    (by rw [hrid]; exact hrid2)]
  simp only [hloc, hrid, List.append_nil]
  simp only [hps, hqs, hmap]
  unfold verifyStage
  rw [hf]
  simp only [noFaults]
  simp only [hdelS, hdelF, hkeep, List.nil_append, List.map_cons, List.map_nil]
  have hfind : Catalog.findProduct
      { collections := cat0.collections, products := [⟨pid, e.rawName⟩],
        prices := [⟨freshPrid cat0.nextId, pid, e.skuT, a⟩], nextId := cat0.nextId + 1 }
      pid = some ⟨pid, e.rawName⟩ := by
    unfold Catalog.findProduct
    simp
  simp only [hfind]
  rw [hkv]
  simp

/-- C1: two identical upsert syncs with the same non-empty sku against an
available (initially empty) mapping store and an initially empty downstream
product set, with all downstream calls succeeding: the first call creates
(mode "create"), the second updates the product id recovered from the stored
mapping (mode "update") and deletes the first call's price by SKU before
creating its replacement, leaving exactly one product and exactly one price
with that SKU downstream. -/
theorem C1_upsert_idempotent_with_store (e : Env) (kv0 : KVStore) (cat0 : Catalog)
    (hname : e.rawName ≠ "") (hcoll : e.collName ≠ "")
    (hup : e.req.upsert = true) (hsku : e.skuT ≠ "") (hkv : e.kvAvail = true)
    (hf : e.faults = noFaults)
    (a : Int) (hp : e.req.price = some (JNum.num a)) (ha : ¬ a < 0)
    (hcb : compareBadB e.req = false)
    (hmiss : kvGet kv0 e.kvKey = none)
    (hrid2 : ¬ collectionRid cat0.collections e.collName = "")
    (hprod : cat0.products = []) (hpri : cat0.prices = []) :
    (handler e kv0 cat0).resp.mode = "create" ∧
    (handler e kv0 cat0).resp.status = 201 ∧
    (handler e kv0 cat0).resp.ok = true ∧
    (handler e (handler e kv0 cat0).kv (handler e kv0 cat0).cat).resp.mode = "update" ∧
    (handler e (handler e kv0 cat0).kv (handler e kv0 cat0).cat).resp.status = 200 ∧
    (handler e (handler e kv0 cat0).kv (handler e kv0 cat0).cat).resp.ok = true ∧
    (handler e (handler e kv0 cat0).kv (handler e kv0 cat0).cat).resp.productId =
      (handler e kv0 cat0).resp.productId ∧
    (∃ pid prid1 prid2,
      kvGet (handler e kv0 cat0).kv e.kvKey = some ⟨pid, some prid1⟩ ∧
      (handler e kv0 cat0).cat.prices = [⟨prid1, pid, e.skuT, a⟩] ∧
      (handler e (handler e kv0 cat0).kv (handler e kv0 cat0).cat).calls =
        [Call.fetchCollections, Call.putProduct pid e.rawName, Call.listPrices pid,
         Call.deletePrice pid prid1, Call.createPrice pid e.skuT a,
         Call.getProduct pid] ∧
      (handler e (handler e kv0 cat0).kv (handler e kv0 cat0).cat).cat.products =
        [⟨pid, e.rawName⟩] ∧
      (handler e (handler e kv0 cat0).kv (handler e kv0 cat0).cat).cat.prices =
        [⟨prid2, pid, e.skuT, a⟩]) ∧
    (handler e (handler e kv0 cat0).kv (handler e kv0 cat0).cat).cat.products.length = 1 ∧
    ((handler e (handler e kv0 cat0).kv (handler e kv0 cat0).cat).cat.prices.filter
      (fun q => decide (lowerStr (trimStr q.sku) = lowerStr e.skuT))).length = 1 := by
  have hskuTrim : lowerStr (trimStr e.skuT) = lowerStr e.skuT := by
    unfold Env.skuT
    rw [trimStr_trimStr]
  have h1 := handler_first_upsert e kv0 cat0 (collectionRid cat0.collections e.collName) a
    hname hcoll hup hsku hkv hf hp ha hcb hmiss rfl hrid2 hprod hpri
  have h2 := handler_second_upsert e
    (kvSet kv0 e.kvKey ⟨freshPid cat0.nextId, some (freshPrid (cat0.nextId + 1))⟩)
    { collections := cat0.collections, products := [⟨freshPid cat0.nextId, e.rawName⟩],
      prices := [⟨freshPrid (cat0.nextId + 1), freshPid cat0.nextId, e.skuT, a⟩],
      nextId := cat0.nextId + 2 }
    (collectionRid cat0.collections e.collName)
    (freshPid cat0.nextId) (freshPrid (cat0.nextId + 1)) e.rawName a a
    hname hcoll hup hsku hkv hf hp ha hcb
    (freshPid_ne_empty cat0.nextId) (freshPrid_ne_empty (cat0.nextId + 1))
    (kvGet_kvSet_self kv0 e.kvKey ⟨freshPid cat0.nextId, some (freshPrid (cat0.nextId + 1))⟩)
    rfl hrid2 rfl rfl
  simp only [h1]
  simp only [h2]
  refine ⟨trivial, trivial, trivial, trivial, trivial, trivial, trivial,
    ⟨freshPid cat0.nextId, freshPrid (cat0.nextId + 1), freshPrid (cat0.nextId + 2),
      kvGet_kvSet_self kv0 e.kvKey
        ⟨freshPid cat0.nextId, some (freshPrid (cat0.nextId + 1))⟩,
      by trivial, by trivial, by trivial, by trivial⟩, by trivial, ?_⟩
  simp [hskuTrim]

/-- Witness for C1 at a concrete input (two identical syncs of sku W-100). -/
theorem C1_upsert_idempotent_with_store_witness :
    (handler envW [] catW).resp.mode = "create" ∧
    (handler envW [] catW).resp.status = 201 ∧
    (handler envW [] catW).resp.ok = true ∧
    (handler envW (handler envW [] catW).kv (handler envW [] catW).cat).resp.mode
      = "update" ∧
    (handler envW (handler envW [] catW).kv (handler envW [] catW).cat).resp.status = 200 ∧
    (handler envW (handler envW [] catW).kv (handler envW [] catW).cat).resp.ok = true ∧
    (handler envW (handler envW [] catW).kv (handler envW [] catW).cat).resp.productId =
      (handler envW [] catW).resp.productId ∧
    (∃ pid prid1 prid2,
      kvGet (handler envW [] catW).kv envW.kvKey = some ⟨pid, some prid1⟩ ∧
      (handler envW [] catW).cat.prices = [⟨prid1, pid, envW.skuT, 19⟩] ∧
      (handler envW (handler envW [] catW).kv (handler envW [] catW).cat).calls =
        [Call.fetchCollections, Call.putProduct pid envW.rawName, Call.listPrices pid,
         Call.deletePrice pid prid1, Call.createPrice pid envW.skuT 19,
         Call.getProduct pid] ∧
      (handler envW (handler envW [] catW).kv (handler envW [] catW).cat).cat.products =
        [⟨pid, envW.rawName⟩] ∧
      (handler envW (handler envW [] catW).kv (handler envW [] catW).cat).cat.prices =
        [⟨prid2, pid, envW.skuT, 19⟩]) ∧
    (handler envW (handler envW [] catW).kv
      (handler envW [] catW).cat).cat.products.length = 1 ∧
    ((handler envW (handler envW [] catW).kv (handler envW [] catW).cat).cat.prices.filter
      (fun q => decide (lowerStr (trimStr q.sku) = lowerStr envW.skuT))).length = 1 :=
  C1_upsert_idempotent_with_store envW [] catW (by decide) (by decide) (by decide)
    (by decide) (by decide) (by decide) 19 (by decide) (by decide) (by decide) (by decide)
    (by decide) (by decide) (by decide)

end SyncProduct
